import Mathlib

/-!
Verification development for the LocalLoop building-sharing backend.

The Python sources are shallowly embedded here:
* `src/model/in_memmory_db.py` — state store and the reconciliation pass
  (`_cleanup_state`);
* `src/domain/actions.py` — the action interpreter (`apply_action`) and the
  borrowing confirmation (`confirm_borrowing`);
* `src/ai/ai.py` — the untrusted-output normalizer: the JSON salvage pipeline
  (`_safe_json_from_response`) and the ownership-safety guard inside
  `run_localloop_brain`;
* `src/constants.py` — the impact and threshold constants.

Conventions of the embedding:
* Python dict records become structures.  String-valued fields that the code
  only ever tests for truthiness (`if not x`) are plain `String`s with `""`
  standing for an absent/falsy value; fields whose code distinguishes `None`
  from other values (`is None` checks in the normalizer) are `Option String`.
* Python floats in the impact counters are embedded as `ℚ` (every constant
  involved — 2.0, 1.0, 1.5, 0.5 — and every sum of them is exactly
  representable, so no rounding behaviour is lost).
* The global mutable `BUILDING_STATE` becomes explicit state passing: each
  operation takes a `St` and returns the new `St`.  `persist()` — which in the
  source reassigns `BUILDING_STATE = _cleanup_state(BUILDING_STATE)` and
  writes the file — is embedded as applying `cleanupState` to the state
  (the file write has no further observable effect on the program state).
* Wall-clock timestamps (`datetime.now(...).isoformat()`) are passed in as an
  explicit `now : String` parameter.
-/

namespace LocalLoop

/-- A resident record (only the fields the embedded code reads). -/
structure Resident where
  id : String
  name : String
deriving Repr, DecidableEq

/-- An item record as stored in `BUILDING_STATE["items"]`. -/
structure Item where
  id : String
  name : String
  description : String
  tags : List String
  owner_id : String
  status : String
  created_at : String
deriving Repr, DecidableEq

/-- A borrowing record as stored in `BUILDING_STATE["borrowings"]`. -/
structure Borrowing where
  id : String
  item_id : String
  lender_id : String
  borrower_id : String
  start : String
  due : String
  status : String
deriving Repr, DecidableEq

/-- A disposal-intent record as stored in `BUILDING_STATE["disposal_intents"]`. -/
structure DisposalIntent where
  id : String
  name : String
  description : String
  tags : List String
  owner_id : String
  status : String
  created_at : String
deriving Repr, DecidableEq

/-- An event record (`_create_event` in `src/domain/actions.py`).  The
`metadata` dict of a collection event holds `category` and `intents_count`;
they are embedded as the two fields of those names. -/
structure Event where
  id : String
  event_type : String
  source : String
  category : String
  intents_count : Nat
  created_at : String
  impact_co2 : ℚ
  impact_waste : ℚ
deriving Repr, DecidableEq

/-- The impact counters (`BUILDING_STATE["impact"]`). -/
structure Impact where
  co2_saved_kg : ℚ
  waste_avoided_kg : ℚ
  events_count : Int
  borrows_count : Int
  items_shared : Int
deriving Repr, DecidableEq

/-- The whole building state (`BUILDING_STATE`).  `building` is an opaque
passthrough blob embedded as a list of key/value pairs. -/
structure St where
  building : List (String × String)
  residents : List Resident
  items : List Item
  borrowings : List Borrowing
  events : List Event
  impact : Impact
  disposal_intents : List DisposalIntent
deriving Repr, DecidableEq

/-! ## Constants (`src/constants.py`) -/

def CO2_PER_BORROW_KG : ℚ := 2
def WASTE_PER_BORROW_KG : ℚ := 1
def CO2_PER_EVENT_ITEM_KG : ℚ := 1.5
def WASTE_PER_EVENT_ITEM_KG : ℚ := 0.5
def DISPOSAL_INTENT_THRESHOLD : Nat := 2
def ESTIMATED_ITEMS_PER_INTENT : Nat := 3

/-! ## Reconciliation pass (`_cleanup_state`, `src/model/in_memmory_db.py`) -/

/-- `_BORROW_STATUSES` from `src/model/in_memmory_db.py` (a set; only
membership is used). -/
def BORROW_STATUSES : List String :=
  ["waiting_for_confirm", "active", "returned", "cancelled", "return_requested"]

/-- `_ITEM_STATUSES` from `src/model/in_memmory_db.py`. -/
def ITEM_STATUSES : List String :=
  ["available", "unavailable", "archived", "borrowed", "requested"]

/-- `resident_ids = {r.get("id") for r in residents if r.get("id")}`. -/
def residentIds (residents : List Resident) : List String :=
  (residents.filter (fun r => r.id != "")).map (fun r => r.id)

/-- The per-item keep condition of the items loop of `_cleanup_state`:
the item must have an id and an owner that is a known resident. -/
def itemKeep (rids : List String) (it : Item) : Bool :=
  it.id != "" && (it.owner_id != "" && rids.contains it.owner_id)

/-- The status normalisation of the items loop of `_cleanup_state`:
a status outside `_ITEM_STATUSES` is coerced to `"available"`. -/
def itemNormalize (it : Item) : Item :=
  if ITEM_STATUSES.contains it.status then it else { it with status := "available" }

/-- The items loop of `_cleanup_state` (filter, then normalise status). -/
def cleanItems (rids : List String) (raw : List Item) : List Item :=
  (raw.filter (itemKeep rids)).map itemNormalize

/-- The per-borrowing keep condition of the borrowings loop of
`_cleanup_state`. -/
def borrowKeep (rids iids : List String) (b : Borrowing) : Bool :=
  b.id != "" &&
  (b.item_id != "" && iids.contains b.item_id) &&
  (b.lender_id != "" && rids.contains b.lender_id) &&
  (b.borrower_id != "" && rids.contains b.borrower_id) &&
  BORROW_STATUSES.contains b.status

/-- The borrowings loop of `_cleanup_state`. -/
def cleanBorrows (rids iids : List String) (raw : List Borrowing) : List Borrowing :=
  raw.filter (borrowKeep rids iids)

/-- `borrow_by_item.get(iid, [])`: statuses of the surviving borrowings that
reference item id `iid`, in list order. -/
def borrowStatusesFor (borrows : List Borrowing) (iid : String) : List String :=
  (borrows.filter (fun b => b.item_id == iid)).map (fun b => b.status)

/-- The status recomputation of `_cleanup_state` for one item, given the
statuses of the borrowings that reference it (lines 103–119 of
`src/model/in_memmory_db.py`). -/
def deriveStatus (stats : List String) (stored : String) : String :=
  if stats.contains "active" then "borrowed"
  else if stats.contains "waiting_for_confirm" then "requested"
  else if stats.contains "return_requested" then "borrowed"
  else if stored == "borrowed" || stored == "requested" then "available"
  else if !(ITEM_STATUSES.contains stored) then "available"
  else stored

/-- The item-status recomputation loop of `_cleanup_state`. -/
def recomputeItems (borrows : List Borrowing) (items : List Item) : List Item :=
  items.map (fun it => { it with status := deriveStatus (borrowStatusesFor borrows it.id) it.status })

/-- `_cleanup_state` (`src/model/in_memmory_db.py`): drop referentially
invalid items and borrowings, re-derive item statuses, pass everything else
through. -/
def cleanupState (s : St) : St :=
  let rids := residentIds s.residents
  let items := cleanItems rids s.items
  let iids := items.map (fun it => it.id)
  let borrows := cleanBorrows rids iids s.borrowings
  { s with items := recomputeItems borrows items, borrowings := borrows }

/-! ## Action interpreter (`apply_action`, `src/domain/actions.py`) -/

/-- Python truthiness of an optional string: `None` and `""` are falsy. -/
def strTruthy : Option String → Bool
  | none => false
  | some s => s != ""

/-- `x or d` for an optional string `x` and a default `d`. -/
def orDefault (o : Option String) (d : String) : String :=
  match o with
  | none => d
  | some s => if s == "" then d else s

/-- `x or y` for two optional strings (used for `name or title` chains). -/
def orElse2 (a b : Option String) : Option String :=
  if strTruthy a then a else b

/-- Python truthiness of an optional list: `None` and `[]` are falsy. -/
def listTruthy {α : Type} : Option (List α) → Bool
  | none => false
  | some l => !l.isEmpty

/-- An element of `metadata["items"]` of a `register_disposal_intent` action.
`owner_id` is an `Option` because the normalizer distinguishes a missing
owner (`is None`) from a mismatched one. -/
structure DispItemMeta where
  name : Option String
  description : Option String
  tags : Option (List String)
  owner_id : Option String
deriving Repr, DecidableEq

/-- The `metadata` dict of an action, with one optional field per key that any
branch of `apply_action` or of the normalizer's ownership guard reads. -/
structure Metadata where
  item_id : Option String := none
  lender_id : Option String := none
  suggested_start : Option String := none
  suggested_due : Option String := none
  borrowing_id : Option String := none
  items : Option (List DispItemMeta) := none
  categories : Option (List String) := none
  name : Option String := none
  title : Option String := none
  description : Option String := none
  desc : Option String := none
  tags : Option (List String) := none
  owner_id : Option String := none
  status : Option String := none
deriving Repr, DecidableEq

/-- The empty metadata dict `{}`. -/
def emptyMetadata : Metadata := {}

/-- An action object `{"action_type": ..., "metadata": ...}`. -/
structure Action where
  action_type : String
  metadata : Option Metadata
deriving Repr, DecidableEq

/-- The structured results `apply_action` returns (its `{"result": ...}`
dicts). -/
inductive ActionResult where
  | borrow_waiting_confirmation (borrowing_id : String)
  | already_returned (borrowing_id : String)
  | marked_returned (borrowing_id : String)
  | disposal_registered (created_items : List DisposalIntent) (created_events : List Event)
  | item_registered (item_id : String)
deriving Repr, DecidableEq

/-- Replace the first element satisfying `p` by its image under `f` (the
effect of Python's find-then-mutate-in-place idiom on a list of dicts). -/
def updateFirst {α : Type} (p : α → Bool) (f : α → α) : List α → List α
  | [] => []
  | x :: xs => if p x then f x :: xs else x :: updateFirst p f xs

/-- `_find_item`: first item with the given id. -/
def findItem (st : St) (item_id : String) : Option Item :=
  st.items.find? (fun it => it.id == item_id)

/-- `_find_borrowing`: first borrowing with the given id. -/
def findBorrowing (st : St) (borrowing_id : String) : Option Borrowing :=
  st.borrowings.find? (fun b => b.id == borrowing_id)

/-- `_create_event` (`src/domain/actions.py`): append an event and bump the
impact counters.  Returns the new state and the created event. -/
def createEvent (event_type source category : String) (intents_count : Nat)
    (impact_co2 impact_waste : ℚ) (now : String) (st : St) : St × Event :=
  let eid := "event-" ++ toString (st.events.length + 1)
  let ev : Event := ⟨eid, event_type, source, category, intents_count, now, impact_co2, impact_waste⟩
  ({ st with
      events := st.events ++ [ev],
      impact := { st.impact with
        co2_saved_kg := st.impact.co2_saved_kg + impact_co2,
        waste_avoided_kg := st.impact.waste_avoided_kg + impact_waste,
        events_count := st.impact.events_count + 1 } }, ev)

/-- The `create_borrow` branch of `apply_action` (before the final
`persist()`). -/
def createBorrowBranch (user_id : String) (md : Metadata) (st : St) :
    St × Option ActionResult :=
  if !(strTruthy md.item_id) || !(strTruthy md.lender_id)
     || !(strTruthy md.suggested_start) || !(strTruthy md.suggested_due) then
    (st, none)
  else
    let item_id := md.item_id.getD ""
    match findItem st item_id with
    | none => (st, none)
    | some item =>
      if item.status != "available" then (st, none)
      else
        let borrowing_id := "borrowing-" ++ toString (st.borrowings.length + 1)
        let b : Borrowing :=
          ⟨borrowing_id, item_id, md.lender_id.getD "", user_id,
            md.suggested_start.getD "", md.suggested_due.getD "", "waiting_for_confirm"⟩
        ({ st with borrowings := st.borrowings ++ [b] },
          some (.borrow_waiting_confirmation borrowing_id))

/-- The `mark_returned` branch of `apply_action` (before the final
`persist()`). -/
def markReturnedBranch (md : Metadata) (st : St) : St × Option ActionResult :=
  if !(strTruthy md.borrowing_id) then (st, none)
  else
    let borrowing_id := md.borrowing_id.getD ""
    match findBorrowing st borrowing_id with
    | none => (st, none)
    | some b =>
      if b.status == "returned" then (st, some (.already_returned borrowing_id))
      else
        let st1 := { st with
          borrowings := updateFirst (fun x => x.id == borrowing_id)
            (fun x => { x with status := "returned" }) st.borrowings }
        let st2 := { st1 with
          items := updateFirst (fun it => it.id == b.item_id)
            (fun it => { it with status := "available" }) st1.items }
        (st2, some (.marked_returned borrowing_id))

/-- The items loop of the `register_disposal_intent` branch: build one
disposal entry per metadata item, appending to the store as it goes (ids are
`disposal-{len(store)+1}`).  Returns the new store and the created entries. -/
def mkDispFromItems (user_id now : String) :
    List DispItemMeta → List DisposalIntent → List DisposalIntent × List DisposalIntent
  | [], store => (store, [])
  | it :: rest, store =>
    let d : DisposalIntent :=
      ⟨"disposal-" ++ toString (store.length + 1),
        orDefault it.name "unnamed", orDefault it.description "",
        it.tags.getD [], orDefault it.owner_id user_id, "for_disposal", now⟩
    let (store', created) := mkDispFromItems user_id now rest (store ++ [d])
    (store', d :: created)

/-- The categories loop of the `register_disposal_intent` branch. -/
def mkDispFromCats (user_id now : String) :
    List String → List DisposalIntent → List DisposalIntent × List DisposalIntent
  | [], store => (store, [])
  | cat :: rest, store =>
    let d : DisposalIntent :=
      ⟨"disposal-" ++ toString (store.length + 1), cat, "", [cat], user_id, "for_disposal", now⟩
    let (store', created) := mkDispFromCats user_id now rest (store ++ [d])
    (store', d :: created)

/-- Deduplicate keeping first occurrences.  The Python source iterates over a
`set` of tags, whose order is unspecified; this embedding fixes the
first-occurrence order as its deterministic refinement. -/
def dedupFirstAux (seen : List String) : List String → List String
  | [] => []
  | x :: xs => if seen.contains x then dedupFirstAux seen xs
               else x :: dedupFirstAux (x :: seen) xs

def dedupFirst (l : List String) : List String := dedupFirstAux [] l

/-- The threshold sweep of the `register_disposal_intent` branch: for each
touched tag, count the intents carrying it; at or above the threshold,
synthesize a collection event and remove every intent carrying the tag. -/
def sweepTags (now : String) : List String → St → St × List Event
  | [], st => (st, [])
  | tag :: rest, st =>
    let count := (st.disposal_intents.filter (fun it => it.tags.contains tag)).length
    if DISPOSAL_INTENT_THRESHOLD ≤ count then
      let estimated_items := ESTIMATED_ITEMS_PER_INTENT * count
      let co2 := CO2_PER_EVENT_ITEM_KG * (estimated_items : ℚ)
      let waste := WASTE_PER_EVENT_ITEM_KG * (estimated_items : ℚ)
      let r1 := createEvent "collection" "disposal_intent" tag count co2 waste now st
      let st2 := { r1.1 with
        disposal_intents := r1.1.disposal_intents.filter (fun it => !(it.tags.contains tag)) }
      let r2 := sweepTags now rest st2
      (r2.1, r1.2 :: r2.2)
    else sweepTags now rest st

/-- The `register_disposal_intent` branch of `apply_action` (before the final
`persist()`). -/
def registerDisposalBranch (user_id now : String) (md : Metadata) (st : St) :
    St × Option ActionResult :=
  let categories := md.categories.getD []
  if !(listTruthy md.items) && !(listTruthy (some categories)) then (st, none)
  else
    let r1 :=
      if listTruthy md.items then mkDispFromItems user_id now (md.items.getD []) st.disposal_intents
      else (st.disposal_intents, [])
    let r2 :=
      if !categories.isEmpty then mkDispFromCats user_id now categories r1.1
      else (r1.1, [])
    let created_items := r1.2 ++ r2.2
    let st1 := { st with disposal_intents := r2.1 }
    let tags_to_check := dedupFirst (created_items.flatMap (fun d => d.tags))
    let r3 := sweepTags now tags_to_check st1
    (r3.1, some (.disposal_registered created_items r3.2))

/-- The `register_item` branch of `apply_action` (before the final
`persist()`). -/
def registerItemBranch (user_id now : String) (md : Metadata) (st : St) :
    St × Option ActionResult :=
  let name := orElse2 md.name md.title
  if !(strTruthy name) then (st, none)
  else
    let item_id := "item-" ++ toString (st.items.length + 1)
    let item : Item :=
      ⟨item_id, name.getD "",
        orDefault (orElse2 md.description md.desc) "",
        (if listTruthy md.tags then md.tags.getD [] else md.categories.getD []),
        orDefault md.owner_id user_id,
        orDefault md.status "available", now⟩
    ({ st with
        items := st.items ++ [item],
        impact := { st.impact with items_shared := st.impact.items_shared + 1 } },
      some (.item_registered item_id))

/-- `apply_action` (`src/domain/actions.py`).  Every recognised branch ends
with `persist()` — embedded as `cleanupState` on the branch's result state.
A null action persists and returns `None`; an action whose kind matches no
branch falls off the end of the function, returning `None` *without*
persisting. -/
def apply_action (user_id intent : String) (action : Option Action) (now : String)
    (st : St) : St × Option ActionResult :=
  match action with
  | none => (cleanupState st, none)
  | some a =>
    let md := a.metadata.getD emptyMetadata
    if a.action_type == "create_borrow" then
      let (st1, r) := createBorrowBranch user_id md st
      (cleanupState st1, r)
    else if a.action_type == "mark_returned" then
      let (st1, r) := markReturnedBranch md st
      (cleanupState st1, r)
    else if a.action_type == "register_disposal_intent" then
      let (st1, r) := registerDisposalBranch user_id now md st
      (cleanupState st1, r)
    else if a.action_type == "register_item" then
      let (st1, r) := registerItemBranch user_id now md st
      (cleanupState st1, r)
    else (st, none)

/-- `confirm_borrowing` (`src/domain/actions.py`).  The `raise ValueError`
cases are embedded as `Except.error` results that leave the state untouched
(the exception propagates before any mutation or `persist()`). -/
def confirm_borrowing (owner_id borrowing_id : String) (st : St) :
    St × Except String Borrowing :=
  match findBorrowing st borrowing_id with
  | none => (st, .error "Borrowing not found")
  | some b =>
    if b.lender_id != owner_id then
      (st, .error "Only the lender/owner can confirm this borrowing")
    else if b.status != "waiting_for_confirm" then
      (st, .error "Borrowing is not waiting for confirmation")
    else
      let st1 := { st with
        borrowings := updateFirst (fun x => x.id == borrowing_id)
          (fun x => { x with status := "active" }) st.borrowings }
      let st2 := { st1 with
        items := updateFirst (fun it => it.id == b.item_id)
          (fun it => { it with status := "borrowed" }) st1.items }
      let st3 := { st2 with impact := { st2.impact with
        borrows_count := st2.impact.borrows_count + 1,
        co2_saved_kg := st2.impact.co2_saved_kg + CO2_PER_BORROW_KG,
        waste_avoided_kg := st2.impact.waste_avoided_kg + WASTE_PER_BORROW_KG } }
      (cleanupState st3, .ok { b with status := "active" })

/-! ## Untrusted-output normalizer: ownership guard
(`run_localloop_brain`, `src/ai/ai.py`, lines 299–352) -/

/-- The ownership notice the guard appends
(`f"Вы залогинены как '{user_id}'. ..."`). -/
def ownershipNoticeText (user_id : String) : String :=
  "Вы залогинены как \x27" ++ user_id ++
    "\x27. Сменить владельца невозможно — будет установлен текущий аккаунт."

/-- Python `str.strip()` (whitespace variant), modelled over the character
list: drop ASCII whitespace from both ends. -/
def isPyWs (c : Char) : Bool :=
  c == ' ' || c == '\t' || c == '\n' || c == '\r' || c == '\x0b' || c == '\x0c'

def pyStrip (s : String) : String :=
  String.mk (((s.toList.dropWhile isPyWs).reverse.dropWhile isPyWs).reverse)

/-- Sanitise one element of `metadata["items"]`: a missing owner is filled
with the acting user, a mismatched one is overwritten. -/
def sanitizeDispItem (user_id : String) (it : DispItemMeta) : DispItemMeta :=
  match it.owner_id with
  | none => { it with owner_id := some user_id }
  | some o => if o == user_id then it else { it with owner_id := some user_id }

/-- Whether one element of `metadata["items"]` carries an owner different
from the acting user. -/
def dispItemMismatch (user_id : String) (it : DispItemMeta) : Bool :=
  match it.owner_id with
  | none => false
  | some o => o != user_id

/-- Block 1 of the ownership guard (`src/ai/ai.py`, lines 307–318): for a
`register_item`-shaped action, force `metadata["owner_id"]` to the acting
user.  Returns the (possibly rewritten) action, the current metadata dict,
and the notice when an owner was overwritten. -/
def sanitizeRegisterItem (user_id intent : String) (act : Action) (md0 : Metadata) :
    Action × Metadata × Option String :=
  if intent == "register_item" || intent == "offer_item"
     || act.action_type == "register_item" then
    match md0.owner_id with
    | none =>
      let md1 := { md0 with owner_id := some user_id }
      ({ act with metadata := some md1 }, md1, none)
    | some o =>
      if o == user_id then (act, md0, none)
      else
        let md1 := { md0 with owner_id := some user_id }
        ({ act with metadata := some md1 }, md1, some (ownershipNoticeText user_id))
  else (act, md0, none)

/-- Block 2 of the ownership guard (`src/ai/ai.py`, lines 319–340): for a
disposal-intent action, force every `owner_id` of `metadata["items"]` to the
acting user, flagging mismatches. -/
def sanitizeDisposalList (user_id intent : String) (act1 : Action) (md1 : Metadata)
    (notice1 : Option String) : Action × Option String :=
  if intent == "register_disposal_intent" || intent == "get_rid_of_items"
     || act1.action_type == "register_disposal_intent" then
    let items := md1.items.getD []
    if items.isEmpty then (act1, notice1)
    else
      let sanitized := items.map (sanitizeDispItem user_id)
      let notice2 :=
        if items.any (dispItemMismatch user_id) then
          some (ownershipNoticeText user_id)
        else notice1
      ({ act1 with metadata := some { md1 with items := some sanitized } }, notice2)
  else (act1, notice1)

/-- The two guard blocks composed: the sanitised action and the pending
notice. -/
def ownershipPipeline (user_id intent : String) (act : Action) :
    Action × Option String :=
  let md0 := act.metadata.getD emptyMetadata
  let s1 := sanitizeRegisterItem user_id intent act md0
  sanitizeDisposalList user_id intent s1.1 s1.2.1 s1.2.2

/-- The ownership-safety guard of `run_localloop_brain` (`src/ai/ai.py`,
lines 299–352): force every `owner_id` of a `register_item` /
`register_disposal_intent` action to the acting user and, on a mismatch,
append a notice to the reply.  (The dead `confirmation_needed` branch of the
source, which is never set, is omitted.)  Returns the sanitised action and
the possibly-extended reply. -/
def enforceOwnership (user_id intent : String) (action : Option Action)
    (reply : String) : Option Action × String :=
  match action with
  | none => (none, reply)
  | some act =>
    let s2 := ownershipPipeline user_id intent act
    match s2.2 with
    | some n => (some s2.1, pyStrip (pyStrip reply ++ "\n\n" ++ n))
    | none => (some s2.1, reply)

/-! ## Untrusted-output normalizer: JSON salvage pipeline
(`_safe_json_from_response`, `src/ai/ai.py`) -/

/-- A JSON value.  Numbers keep their lexeme (no float semantics is needed by
any claim). -/
inductive JsonVal where
  | null : JsonVal
  | bool (b : Bool) : JsonVal
  | num (lexeme : String) : JsonVal
  | str (s : String) : JsonVal
  | arr (elems : List JsonVal) : JsonVal
  | obj (fields : List (String × JsonVal)) : JsonVal

/-- JSON whitespace skipping (space, tab, newline, carriage return — the
characters `json.loads` skips). -/
def skipWs : List Char → List Char
  | [] => []
  | c :: cs => if c == ' ' || c == '\t' || c == '\n' || c == '\r' then skipWs cs else c :: cs

def isJsonDigit (c : Char) : Bool := '0' ≤ c && c ≤ '9'

def isHexDigit (c : Char) : Bool :=
  isJsonDigit c || ('a' ≤ c && c ≤ 'f') || ('A' ≤ c && c ≤ 'F')

def hexVal (c : Char) : Nat :=
  if isJsonDigit c then c.toNat - '0'.toNat
  else if 'a' ≤ c && c ≤ 'f' then c.toNat - 'a'.toNat + 10
  else c.toNat - 'A'.toNat + 10

/-- Parse the body of a JSON string literal after the opening quote; returns
the decoded string and the input after the closing quote.  Control characters
are rejected; the short escapes and `\uXXXX` are decoded. -/
def parseStrBody : List Char → Option (List Char × List Char)
  | [] => none
  | '\"' :: cs => some ([], cs)
  | '\\' :: esc =>
    (match esc with
     | 'u' :: h1 :: h2 :: h3 :: h4 :: cs =>
       if isHexDigit h1 && isHexDigit h2 && isHexDigit h3 && isHexDigit h4 then
         match parseStrBody cs with
         | some (body, rest) =>
           some (Char.ofNat (((hexVal h1 * 16 + hexVal h2) * 16 + hexVal h3) * 16 + hexVal h4) :: body, rest)
         | none => none
       else none
     | e :: cs =>
       let dec : Option Char :=
         if e == '\"' then some '\"'
         else if e == '\\' then some '\\'
         else if e == '/' then some '/'
         else if e == 'b' then some (Char.ofNat 8)
         else if e == 'f' then some (Char.ofNat 12)
         else if e == 'n' then some '\n'
         else if e == 'r' then some '\r'
         else if e == 't' then some '\t'
         else none
       match dec with
       | some d =>
         (match parseStrBody cs with
          | some (body, rest) => some (d :: body, rest)
          | none => none)
       | none => none
     | [] => none)
  | c :: cs =>
    if c.toNat < 32 then none
    else
      match parseStrBody cs with
      | some (body, rest) => some (c :: body, rest)
      | none => none

/-- Take leading decimal digits. -/
def takeDigits : List Char → List Char × List Char
  | [] => ([], [])
  | c :: cs =>
    if isJsonDigit c then
      let (ds, rest) := takeDigits cs
      (c :: ds, rest)
    else ([], c :: cs)

/-- Parse a JSON number starting at the head of the input (the grammar
`-?(0|[1-9][0-9]*)(\.[0-9]+)?([eE][+-]?[0-9]+)?`); returns the lexeme. -/
def parseNumber (cs : List Char) : Option (List Char × List Char) :=
  let (sign, cs1) := match cs with
    | '-' :: rest => (['-'], rest)
    | _ => (([] : List Char), cs)
  match cs1 with
  | [] => none
  | c :: _ =>
    if !(isJsonDigit c) then none
    else
      let (intDigits, cs2) := takeDigits cs1
      if c == '0' && intDigits.length != 1 then none
      else
        let (fracPart, cs3) := match cs2 with
          | '.' :: rest =>
            let (ds, rest') := takeDigits rest
            if ds.isEmpty then (none, cs2) else (some ('.' :: ds), rest')
          | _ => (none, cs2)
        if (match cs2 with | '.' :: _ => fracPart.isNone | _ => false) then none
        else
          let (expPart, cs4) := match cs3 with
            | e :: rest =>
              if e == 'e' || e == 'E' then
                let (sgn, rest1) := match rest with
                  | s :: r => if s == '+' || s == '-' then ([s], r) else (([] : List Char), rest)
                  | [] => ([], rest)
                let (ds, rest2) := takeDigits rest1
                if ds.isEmpty then (none, cs3) else (some (e :: (sgn ++ ds)), rest2)
              else (none, cs3)
            | [] => (none, cs3)
          if (match cs3 with
              | e :: _ => (e == 'e' || e == 'E') && expPart.isNone
              | [] => false) then none
          else
            some (sign ++ intDigits ++ fracPart.getD [] ++ expPart.getD [], cs4)

/-- Test for a literal keyword at the head of the input. -/
def startsWithChars (kw : List Char) (cs : List Char) : Bool :=
  kw.isPrefixOf cs

mutual
/-- Fuel-indexed recursive-descent JSON value parser modelling `json.loads`
(including the `NaN`/`Infinity` extensions Python accepts by default). -/
def parseVal : Nat → List Char → Option (JsonVal × List Char)
  | 0, _ => none
  | fuel + 1, cs =>
    let cs := skipWs cs
    match cs with
    | [] => none
    | c :: rest =>
      if c == '\x7b' then
        let rest' := skipWs rest
        match rest' with
        | '\x7d' :: rest'' => some (.obj [], rest'')
        | _ => parseMembers fuel rest' []
      else if c == '[' then
        let rest' := skipWs rest
        match rest' with
        | ']' :: rest'' => some (.arr [], rest'')
        | _ => parseElems fuel rest' []
      else if c == '\"' then
        match parseStrBody rest with
        | some (body, rest') => some (.str (String.mk body), rest')
        | none => none
      else if startsWithChars ['t', 'r', 'u', 'e'] cs then
        some (.bool true, cs.drop 4)
      else if startsWithChars ['f', 'a', 'l', 's', 'e'] cs then
        some (.bool false, cs.drop 5)
      else if startsWithChars ['n', 'u', 'l', 'l'] cs then
        some (.null, cs.drop 4)
      else if startsWithChars ['N', 'a', 'N'] cs then
        some (.num "NaN", cs.drop 3)
      else if startsWithChars ['I', 'n', 'f', 'i', 'n', 'i', 't', 'y'] cs then
        some (.num "Infinity", cs.drop 8)
      else if startsWithChars ['-', 'I', 'n', 'f', 'i', 'n', 'i', 't', 'y'] cs then
        some (.num "-Infinity", cs.drop 9)
      else
        match parseNumber cs with
        | some (lexeme, rest') => some (.num (String.mk lexeme), rest')
        | none => none

/-- Parse the members of an object, positioned at the start of a key. -/
def parseMembers : Nat → List Char → List (String × JsonVal) →
    Option (JsonVal × List Char)
  | 0, _, _ => none
  | fuel + 1, cs, acc =>
    match skipWs cs with
    | '\"' :: rest =>
      (match parseStrBody rest with
       | some (key, rest1) =>
         (match skipWs rest1 with
          | ':' :: rest2 =>
            (match parseVal fuel rest2 with
             | some (v, rest3) =>
               (match skipWs rest3 with
                | ',' :: rest4 => parseMembers fuel rest4 (acc ++ [(String.mk key, v)])
                | '\x7d' :: rest4 => some (.obj (acc ++ [(String.mk key, v)]), rest4)
                | _ => none)
             | none => none)
          | _ => none)
       | none => none)
    | _ => none

/-- Parse the elements of an array, positioned at the start of a value. -/
def parseElems : Nat → List Char → List JsonVal → Option (JsonVal × List Char)
  | 0, _, _ => none
  | fuel + 1, cs, acc =>
    match parseVal fuel cs with
    | some (v, rest) =>
      (match skipWs rest with
       | ',' :: rest' => parseElems fuel rest' (acc ++ [v])
       | ']' :: rest' => some (.arr (acc ++ [v]), rest')
       | _ => none)
    | none => none
end

/-- `json.loads`: parse a complete JSON document (leading and trailing
whitespace allowed, nothing else may follow). -/
def jsonLoads (s : String) : Option JsonVal :=
  let cs := s.toList
  match parseVal (cs.length + 1) cs with
  | some (v, rest) => if (skipWs rest).isEmpty then some v else none
  | none => none

/-- Whether a decoded value is a dict or a list. -/
def isObjOrArr : JsonVal → Bool
  | .obj _ => true
  | .arr _ => true
  | _ => false

/-- `_try_json_decode` (`src/ai/ai.py`): decode, and decode once more when
the first decode yields a string (double-encoded JSON); only dict/list
results count. -/
def tryJsonDecode (s : String) : Option JsonVal :=
  match jsonLoads s with
  | none => none
  | some (.str s2) =>
    (match jsonLoads s2 with
     | some p2 => if isObjOrArr p2 then some p2 else none
     | none => none)
  | some p => if isObjOrArr p then some p else none

/-- `_find_balanced` (`src/ai/ai.py`): scan from an index, tracking brace
depth; return the index where the depth first returns to zero. -/
def findBalancedAux (oc cc : Char) : List Char → Nat → Int → Option Nat
  | [], _, _ => none
  | c :: cs, i, depth =>
    if c == oc then findBalancedAux oc cc cs (i + 1) (depth + 1)
    else if c == cc then
      (if depth - 1 = 0 then some i else findBalancedAux oc cc cs (i + 1) (depth - 1))
    else findBalancedAux oc cc cs (i + 1) depth

def findBalanced (s : List Char) (oc cc : Char) (start : Nat) : Option Nat :=
  findBalancedAux oc cc (s.drop start) start 0

/-- The fallback candidates of `_safe_json_from_response`: the first balanced
`\x7b...\x7d` substring and the first balanced `[...]` substring. -/
def jsonCandidates (s : List Char) : List String :=
  let c1 :=
    match s.findIdx? (fun c => c == '\x7b') with
    | some i =>
      (match findBalanced s '\x7b' '\x7d' i with
       | some e => [String.mk ((s.drop i).take (e + 1 - i))]
       | none => [])
    | none => []
  let c2 :=
    match s.findIdx? (fun c => c == '[') with
    | some i =>
      (match findBalanced s '[' ']' i with
       | some e => [String.mk ((s.drop i).take (e + 1 - i))]
       | none => [])
    | none => []
  c1 ++ c2

/-- `_safe_json_from_response` (`src/ai/ai.py`), with the collaborator
response modelled by its text: try a direct (possibly double-encoded) decode
of the stripped text, then each balanced-substring candidate; if nothing
decodes, fail with a structured error carrying the raw text. -/
def safeJsonFromResponse (text : String) : Except String JsonVal :=
  match tryJsonDecode (pyStrip text) with
  | some v => .ok v
  | none =>
    match (jsonCandidates text.toList).findSome? (fun c => tryJsonDecode c) with
    | some v => .ok v
    | none => .error ("Failed to parse AI response as JSON; raw: " ++ text)

instance {ε α : Type} [DecidableEq ε] [DecidableEq α] : DecidableEq (Except ε α) := fun x y =>
  match x, y with
  | .error a, .error b =>
    if h : a = b then isTrue (by rw [h]) else isFalse (fun hh => by cases hh; exact h rfl)
  | .ok a, .ok b =>
    if h : a = b then isTrue (by rw [h]) else isFalse (fun hh => by cases hh; exact h rfl)
  | .error _, .ok _ => isFalse (fun hh => by cases hh)
  | .ok _, .error _ => isFalse (fun hh => by cases hh)

/-! ## Concrete states used as witnesses and counterexamples -/

/-- The empty default state (`_DEFAULT_STATE` with zeroed impact counters). -/
def emptySt : St := ⟨[], [], [], [], [], ⟨0, 0, 0, 0, 0⟩, []⟩

def examplePeter : Resident := ⟨"peter", "Peter"⟩
def exampleAnna : Resident := ⟨"anna", "Anna"⟩

/-- An item of Peter's that Anna has requested. -/
def exampleItem : Item := ⟨"item-1", "drill", "", [], "peter", "requested", "t0"⟩

/-- Anna's pending borrowing of `item-1`. -/
def exampleBorrowing : Borrowing :=
  ⟨"borrowing-1", "item-1", "peter", "anna", "2024-01-01", "2024-01-02", "waiting_for_confirm"⟩

/-- A reconciled state: one pending borrowing of Peter's drill by Anna. -/
def exampleSt : St :=
  ⟨[], [examplePeter, exampleAnna], [exampleItem], [exampleBorrowing], [],
    ⟨0, 0, 0, 0, 0⟩, []⟩

/-- The same scenario after confirmation: the borrowing is active and the
item is with Anna. -/
def exampleBorrowingActive : Borrowing :=
  ⟨"borrowing-1", "item-1", "peter", "anna", "2024-01-01", "2024-01-02", "active"⟩

def exampleItemBorrowed : Item := ⟨"item-1", "drill", "", [], "peter", "borrowed", "t0"⟩

def exampleStActive : St :=
  ⟨[], [examplePeter, exampleAnna], [exampleItemBorrowed], [exampleBorrowingActive], [],
    ⟨0, 0, 0, 0, 0⟩, []⟩

/-- A `register_disposal_intent` action listing a single category. -/
def catsAction (c : String) : Action :=
  ⟨"register_disposal_intent", some { categories := some [c] }⟩

/-- A `register_item` action in which the model tried to register the item
under somebody else's name. -/
def exampleRegisterAct : Action :=
  ⟨"register_item", some { name := some "ladder", owner_id := some "peter" }⟩

/-- A corrupted state: an item owned by a resident that does not exist, so
reconciliation would drop it. -/
def dirtySt : St :=
  ⟨[], [], [⟨"item-1", "ghost chair", "", [], "ghost", "available", "t0"⟩], [], [],
    ⟨0, 0, 0, 0, 0⟩, []⟩

/-- A default item used only as the out-of-range placeholder of `List.getD`. -/
def blankItem : Item := ⟨"", "", "", [], "", "", ""⟩

/-- An item stored as `borrowed` although no borrowing supports it: the
reconciliation pass must reset it to `available`. -/
def exampleStaleItem : Item := ⟨"item-1", "drill", "", [], "peter", "borrowed", "t0"⟩

def exampleStStale : St :=
  ⟨[], [examplePeter], [exampleStaleItem], [], [], ⟨0, 0, 0, 0, 0⟩, []⟩

/-- The truncated collaborator output of the specification's parse-failure
scenario. -/
def truncatedReply : String :=
  "Sure! \x7b\"intent\": \"small_talk\", \"reply\": \"hi\""

/-! ## General list lemmas -/

theorem map_eq_self_of {α : Type} (f : α → α) (l : List α) (h : ∀ x ∈ l, f x = x) :
    l.map f = l := by
  induction l with
  | nil => rfl
  | cons x xs ih =>
    simp only [List.map_cons, h x (by simp)]
    rw [ih (fun y hy => h y (List.mem_cons_of_mem _ hy))]

theorem mem_updateFirst {α : Type} {p : α → Bool} {f : α → α} {l : List α} {x : α} :
    x ∈ updateFirst p f l → x ∈ l ∨ ∃ y ∈ l, p y = true ∧ x = f y := by
  induction l with
  | nil => intro h; simp [updateFirst] at h
  | cons a as ih =>
    intro h
    by_cases ha : p a = true
    · simp only [updateFirst, ha, if_true, List.mem_cons] at h
      rcases h with h | h
      · exact Or.inr ⟨a, by simp, ha, h⟩
      · exact Or.inl (List.mem_cons_of_mem _ h)
    · rw [updateFirst, if_neg ha, List.mem_cons] at h
      rcases h with h | h
      · exact Or.inl (by simp [h])
      · rcases ih h with h' | ⟨y, hy, hpy, hxy⟩
        · exact Or.inl (List.mem_cons_of_mem _ h')
        · exact Or.inr ⟨y, List.mem_cons_of_mem _ hy, hpy, hxy⟩

theorem map_updateFirst {α β : Type} (g : α → β) {p : α → Bool} {f : α → α}
    (hf : ∀ x, g (f x) = g x) (l : List α) :
    (updateFirst p f l).map g = l.map g := by
  induction l with
  | nil => rfl
  | cons a as ih =>
    by_cases ha : p a = true
    · simp [updateFirst, ha, hf]
    · simp [updateFirst, ha, ih]

theorem find?_updateFirst_self {α : Type} {p : α → Bool} {f : α → α} {l : List α} {b : α}
    (hb : p (f b) = true) :
    l.find? p = some b → (updateFirst p f l).find? p = some (f b) := by
  induction l with
  | nil => intro h; simp [List.find?] at h
  | cons a as ih =>
    intro h
    by_cases ha : p a = true
    · rw [List.find?_cons_of_pos _ ha] at h
      cases h
      simp [updateFirst, ha, List.find?_cons_of_pos _ hb]
    · rw [List.find?_cons_of_neg _ (by simpa using ha)] at h
      simp [updateFirst, ha, List.find?_cons_of_neg _ (by simpa using ha), ih h]

theorem updateFirst_mem_self {α : Type} {p : α → Bool} {f : α → α} {l : List α} {b : α} :
    l.find? p = some b → f b ∈ updateFirst p f l := by
  induction l with
  | nil => intro h; simp [List.find?] at h
  | cons a as ih =>
    intro h
    by_cases ha : p a = true
    · rw [List.find?_cons_of_pos _ ha] at h
      cases h
      simp [updateFirst, ha]
    · rw [List.find?_cons_of_neg _ (by simpa using ha)] at h
      simp only [updateFirst, ha, if_false]
      exact List.mem_cons_of_mem _ (ih h)

theorem find?_map_of_key {α β : Type} (f : α → β) (g : α → α) (p : β → Bool)
    (hg : ∀ x, f (g x) = f x) (l : List α) :
    ∀ {y}, l.find? (fun x => p (f x)) = some y →
      (l.map g).find? (fun x => p (f x)) = some (g y) := by
  induction l with
  | nil => intro y h; simp [List.find?] at h
  | cons a as ih =>
    intro y h
    rw [List.map_cons]
    by_cases ha : p (f a) = true
    · simp only [List.find?_cons, ha] at h
      cases h
      simp only [List.find?_cons, hg, ha]
    · simp only [List.find?_cons, Bool.not_eq_true] at ha
      simp only [List.find?_cons, ha] at h
      simp only [List.find?_cons, hg, ha]
      exact ih h

theorem find?_key_isSome {α β : Type} [BEq β] (f : α → β) (v : β) (l : List α)
    (h : ∃ x ∈ l, (f x == v) = true) :
    ∃ y, l.find? (fun x => f x == v) = some y := by
  obtain ⟨x, hx, hfx⟩ := h
  have hs : (l.find? (fun x => f x == v)).isSome := by
    apply List.find?_isSome.mpr
    exact ⟨x, hx, hfx⟩
  obtain ⟨y, hy⟩ := Option.isSome_iff_exists.mp hs
  exact ⟨y, hy⟩

/-! ## Lemmas about the reconciliation pass -/

theorem St.ext' {a b : St} (h1 : a.building = b.building)
    (h2 : a.residents = b.residents) (h3 : a.items = b.items)
    (h4 : a.borrowings = b.borrowings) (h5 : a.events = b.events)
    (h6 : a.impact = b.impact) (h7 : a.disposal_intents = b.disposal_intents) :
    a = b := by
  cases a; cases b; simp_all

theorem mem_cleanItems {rids : List String} {l : List Item} {x : Item}
    (h : x ∈ cleanItems rids l) :
    ∃ y ∈ l, itemKeep rids y = true ∧ x = itemNormalize y := by
  obtain ⟨y, hy, hxy⟩ := List.mem_map.mp h
  obtain ⟨hyl, hkeep⟩ := List.mem_filter.mp hy
  exact ⟨y, hyl, hkeep, hxy.symm⟩

theorem mem_cleanBorrows {rids iids : List String} {l : List Borrowing} {b : Borrowing}
    (h : b ∈ cleanBorrows rids iids l) : b ∈ l ∧ borrowKeep rids iids b = true :=
  List.mem_filter.mp h

theorem mem_recomputeItems {B : List Borrowing} {l : List Item} {x : Item}
    (h : x ∈ recomputeItems B l) :
    ∃ y ∈ l, x = { y with status := deriveStatus (borrowStatusesFor B y.id) y.status } := by
  obtain ⟨y, hy, hxy⟩ := List.mem_map.mp h
  exact ⟨y, hy, hxy.symm⟩

theorem recomputeItems_map {β : Type} (g : Item → β)
    (hg : ∀ it st, g { it with status := st } = g it) (B : List Borrowing) (l : List Item) :
    (recomputeItems B l).map g = l.map g := by
  unfold recomputeItems
  rw [List.map_map]
  exact List.map_congr_left (fun it _ => hg it _)

theorem itemNormalize_id (it : Item) : (itemNormalize it).id = it.id := by
  unfold itemNormalize; split <;> rfl

theorem itemNormalize_owner (it : Item) : (itemNormalize it).owner_id = it.owner_id := by
  unfold itemNormalize; split <;> rfl

theorem itemNormalize_status_mem (it : Item) :
    ITEM_STATUSES.contains (itemNormalize it).status = true := by
  unfold itemNormalize
  split
  · assumption
  · rfl

theorem deriveStatus_status_mem (stats : List String) (stored : String) :
    ITEM_STATUSES.contains (deriveStatus stats stored) = true := by
  unfold deriveStatus
  split_ifs with h1 h2 h3 h4 h5
  · rfl
  · rfl
  · rfl
  · rfl
  · rfl
  · simpa using h5

theorem deriveStatus_idem (stats : List String) (stored : String) :
    deriveStatus stats (deriveStatus stats stored) = deriveStatus stats stored := by
  unfold deriveStatus
  split_ifs with h1 h2 h3 h4 h5 <;> simp_all

theorem recomputeItems_idem (B : List Borrowing) (l : List Item) :
    recomputeItems B (recomputeItems B l) = recomputeItems B l := by
  unfold recomputeItems
  rw [List.map_map]
  apply List.map_congr_left
  intro it _
  have h1 : (({ it with status := deriveStatus (borrowStatusesFor B it.id) it.status } : Item)).id
      = it.id := rfl
  show ({ { it with status := deriveStatus (borrowStatusesFor B it.id) it.status } with
      status := deriveStatus (borrowStatusesFor B it.id) (deriveStatus (borrowStatusesFor B it.id) it.status) } : Item) = _
  rw [deriveStatus_idem]

theorem itemKeep_normalize (rids : List String) (it : Item) :
    itemKeep rids (itemNormalize it) = itemKeep rids it := by
  unfold itemKeep
  rw [itemNormalize_id, itemNormalize_owner]

theorem itemKeep_status (rids : List String) (it : Item) (st : String) :
    itemKeep rids { it with status := st } = itemKeep rids it := rfl

/-- C2 helper: every item surviving `cleanupState` passes the keep filter and
carries a status in the closed enum. -/
theorem cleanupState_items_valid (s : St) :
    ∀ x ∈ (cleanupState s).items,
      itemKeep (residentIds s.residents) x = true ∧
      ITEM_STATUSES.contains x.status = true := by
  intro x hx
  obtain ⟨y, hy, hxy⟩ := mem_recomputeItems hx
  obtain ⟨z, _, hkeep, hyz⟩ := mem_cleanItems hy
  constructor
  · rw [hxy, itemKeep_status, hyz, itemKeep_normalize]
    exact hkeep
  · rw [hxy]
    exact deriveStatus_status_mem _ _

theorem cleanupState_borrowings_valid (s : St) :
    ∀ b ∈ (cleanupState s).borrowings,
      borrowKeep (residentIds s.residents)
        ((cleanItems (residentIds s.residents) s.items).map (fun it => it.id)) b = true := by
  intro b hb
  exact (mem_cleanBorrows hb).2

theorem cleanupState_map_id (s : St) :
    (cleanupState s).items.map (fun it => it.id) =
      (cleanItems (residentIds s.residents) s.items).map (fun it => it.id) := by
  show (recomputeItems _ _).map _ = _
  exact recomputeItems_map (fun it => it.id) (fun _ _ => rfl) _ _

/-- C2 (`spec.md` §8, "Idempotence"): the reconciliation pass is idempotent —
`reconcile(reconcile(S)) == reconcile(S)` for every raw state `S`; every
output of `_cleanup_state` is a fixpoint of `_cleanup_state`. -/
theorem cleanup_reconcile_idempotent (s : St) :
    cleanupState (cleanupState s) = cleanupState s := by
  have hres : (cleanupState s).residents = s.residents := rfl
  have hvalid := cleanupState_items_valid s
  have hclean2 :
      cleanItems (residentIds s.residents) (cleanupState s).items = (cleanupState s).items := by
    unfold cleanItems
    rw [List.filter_eq_self.mpr (fun x hx => (hvalid x hx).1)]
    apply map_eq_self_of
    intro x hx
    unfold itemNormalize
    rw [if_pos (hvalid x hx).2]
  have hids2 : (cleanupState s).items.map (fun it => it.id) =
      (cleanItems (residentIds s.residents) s.items).map (fun it => it.id) :=
    cleanupState_map_id s
  have hB2 :
      cleanBorrows (residentIds s.residents)
        ((cleanItems (residentIds s.residents) s.items).map (fun it => it.id))
        (cleanupState s).borrowings = (cleanupState s).borrowings := by
    unfold cleanBorrows
    exact List.filter_eq_self.mpr (fun b hb => cleanupState_borrowings_valid s b hb)
  have hrecomp2 :
      recomputeItems (cleanupState s).borrowings (cleanupState s).items =
        (cleanupState s).items :=
    recomputeItems_idem (cleanupState s).borrowings
      (cleanItems (residentIds s.residents) s.items)
  refine St.ext' rfl rfl ?_ ?_ rfl rfl rfl
  · show recomputeItems
        (cleanBorrows (residentIds (cleanupState s).residents)
          ((cleanItems (residentIds (cleanupState s).residents) (cleanupState s).items).map
            (fun it => it.id))
          (cleanupState s).borrowings)
        (cleanItems (residentIds (cleanupState s).residents) (cleanupState s).items) =
      (cleanupState s).items
    rw [show residentIds (cleanupState s).residents = residentIds s.residents from rfl,
      hclean2, hids2, hB2]
    exact hrecomp2
  · show cleanBorrows (residentIds (cleanupState s).residents)
        ((cleanItems (residentIds (cleanupState s).residents) (cleanupState s).items).map
          (fun it => it.id))
        (cleanupState s).borrowings = (cleanupState s).borrowings
    rw [show residentIds (cleanupState s).residents = residentIds s.residents from rfl,
      hclean2, hids2]
    exact hB2

theorem getD_map {A B : Type} (f : A → B) (l : List A) (i : Nat) (d : B) (dA : A)
    (h : i < l.length) : (l.map f).getD i d = f (l.getD i dA) := by
  rw [List.getD_eq_getElem _ _ (by simpa using h), List.getD_eq_getElem _ _ h]
  simp

theorem deriveStatus_active (stats : List String) (stored : String)
    (h1 : stats.contains "active" = true) : deriveStatus stats stored = "borrowed" := by
  unfold deriveStatus
  rw [if_pos h1]

theorem deriveStatus_waiting (stats : List String) (stored : String)
    (h1 : stats.contains "active" = false)
    (h2 : stats.contains "waiting_for_confirm" = true) :
    deriveStatus stats stored = "requested" := by
  unfold deriveStatus
  rw [if_neg (by rw [h1]; exact Bool.false_ne_true), if_pos h2]

theorem deriveStatus_return_requested (stats : List String) (stored : String)
    (h1 : stats.contains "active" = false)
    (h2 : stats.contains "waiting_for_confirm" = false)
    (h3 : stats.contains "return_requested" = true) :
    deriveStatus stats stored = "borrowed" := by
  unfold deriveStatus
  rw [if_neg (by rw [h1]; exact Bool.false_ne_true),
    if_neg (by rw [h2]; exact Bool.false_ne_true), if_pos h3]

theorem deriveStatus_else_ne (stats : List String) (stored : String)
    (h1 : stats.contains "active" = false)
    (h2 : stats.contains "waiting_for_confirm" = false)
    (h3 : stats.contains "return_requested" = false) :
    deriveStatus stats stored ≠ "borrowed" ∧ deriveStatus stats stored ≠ "requested" := by
  unfold deriveStatus
  rw [if_neg (by rw [h1]; exact Bool.false_ne_true),
    if_neg (by rw [h2]; exact Bool.false_ne_true),
    if_neg (by rw [h3]; exact Bool.false_ne_true)]
  split_ifs with h4 h5
  · exact ⟨by decide, by decide⟩
  · exact ⟨by decide, by decide⟩
  · simp only [Bool.or_eq_true, beq_iff_eq] at h4
    push_neg at h4
    exact ⟨h4.1, h4.2⟩

theorem deriveStatus_norm_reset (stats : List String) (z : Item)
    (h1 : stats.contains "active" = false)
    (h2 : stats.contains "waiting_for_confirm" = false)
    (h3 : stats.contains "return_requested" = false)
    (hb : z.status = "borrowed" ∨ z.status = "requested") :
    deriveStatus stats (itemNormalize z).status = "available" := by
  have hy : (itemNormalize z).status = z.status := by
    unfold itemNormalize
    rcases hb with hb | hb <;> rw [if_pos (by rw [hb]; rfl)]
  rw [hy]
  unfold deriveStatus
  rw [if_neg (by rw [h1]; exact Bool.false_ne_true),
    if_neg (by rw [h2]; exact Bool.false_ne_true),
    if_neg (by rw [h3]; exact Bool.false_ne_true)]
  rcases hb with hb | hb <;> rw [if_pos (by rw [hb]; rfl)]

/-- C1 (`spec.md` §4.1/§8, "Derived-status invariant"): after the
reconciliation pass, the `i`-th surviving item (the `i`-th element of the raw
items list that passes the keep filter) has its status derived from the
surviving borrowings that reference it by the priority rule — any `active`
borrowing makes it `borrowed`; else any `waiting_for_confirm` makes it
`requested`; else any `return_requested` makes it `borrowed` (in all three
cases independently of the status the record carried before the pass); else,
if the item's pre-pass stored status was `borrowed` or `requested`, it is
reset to `available` — and in that last case the status is in particular
never left as `borrowed` or `requested`. -/
theorem cleanup_derived_status (s : St) (i : Nat)
    (h : i < (s.items.filter (itemKeep (residentIds s.residents))).length) :
    ((cleanupState s).items.getD i blankItem).id =
      ((s.items.filter (itemKeep (residentIds s.residents))).getD i blankItem).id ∧
    ((borrowStatusesFor (cleanupState s).borrowings
        ((cleanupState s).items.getD i blankItem).id).contains "active" = true →
      ((cleanupState s).items.getD i blankItem).status = "borrowed") ∧
    ((borrowStatusesFor (cleanupState s).borrowings
        ((cleanupState s).items.getD i blankItem).id).contains "active" = false →
      (borrowStatusesFor (cleanupState s).borrowings
        ((cleanupState s).items.getD i blankItem).id).contains "waiting_for_confirm" = true →
      ((cleanupState s).items.getD i blankItem).status = "requested") ∧
    ((borrowStatusesFor (cleanupState s).borrowings
        ((cleanupState s).items.getD i blankItem).id).contains "active" = false →
      (borrowStatusesFor (cleanupState s).borrowings
        ((cleanupState s).items.getD i blankItem).id).contains "waiting_for_confirm" = false →
      (borrowStatusesFor (cleanupState s).borrowings
        ((cleanupState s).items.getD i blankItem).id).contains "return_requested" = true →
      ((cleanupState s).items.getD i blankItem).status = "borrowed") ∧
    ((borrowStatusesFor (cleanupState s).borrowings
        ((cleanupState s).items.getD i blankItem).id).contains "active" = false →
      (borrowStatusesFor (cleanupState s).borrowings
        ((cleanupState s).items.getD i blankItem).id).contains "waiting_for_confirm" = false →
      (borrowStatusesFor (cleanupState s).borrowings
        ((cleanupState s).items.getD i blankItem).id).contains "return_requested" = false →
      ((((s.items.filter (itemKeep (residentIds s.residents))).getD i blankItem).status =
            "borrowed" ∨
          ((s.items.filter (itemKeep (residentIds s.residents))).getD i blankItem).status =
            "requested") →
        ((cleanupState s).items.getD i blankItem).status = "available") ∧
      ((cleanupState s).items.getD i blankItem).status ≠ "borrowed" ∧
      ((cleanupState s).items.getD i blankItem).status ≠ "requested") := by
  have hout : (cleanupState s).items.getD i blankItem =
      (fun y : Item => { y with
        status := deriveStatus
          (borrowStatusesFor (cleanupState s).borrowings y.id) y.status })
        (itemNormalize
          ((s.items.filter (itemKeep (residentIds s.residents))).getD i blankItem)) := by
    show (recomputeItems (cleanupState s).borrowings
        (cleanItems (residentIds s.residents) s.items)).getD i blankItem = _
    unfold recomputeItems cleanItems
    rw [getD_map _ _ _ _ blankItem (by simpa using h), getD_map _ _ _ _ blankItem h]
  rw [hout]
  refine ⟨?_, ?_, ?_, ?_, ?_⟩
  · exact itemNormalize_id _
  · intro h1
    exact deriveStatus_active _ _ h1
  · intro h1 h2
    exact deriveStatus_waiting _ _ h1 h2
  · intro h1 h2 h3
    exact deriveStatus_return_requested _ _ h1 h2 h3
  · intro h1 h2 h3
    refine ⟨?_, deriveStatus_else_ne _ _ h1 h2 h3⟩
    intro hb
    exact deriveStatus_norm_reset _ _ h1 h2 h3 hb

/-- C1 witness: an item stored as `borrowed` with no supporting borrowing is
reset to `available` by the pass. -/
theorem cleanup_derived_status_witness :
    0 < (exampleStStale.items.filter
        (itemKeep (residentIds exampleStStale.residents))).length ∧
      ((cleanupState exampleStStale).items.getD 0 blankItem).status = "available" :=
  ⟨by decide,
    ((cleanup_derived_status exampleStStale 0 (by decide)).2.2.2.2
      (by decide) (by decide) (by decide)).1 (Or.inl (by decide))⟩

/-- C9: `confirm_borrowing` is atomic on failure — whenever it fails (unknown
borrowing, caller not the lender, or status not `waiting_for_confirm`), it
raises before performing any mutation, so the state store is unchanged and no
persist write occurs (the returned state is literally the input state, not
even reconciled). -/
theorem confirm_borrowing_atomic_on_failure (o bid : String) (st : St) (msg : String)
    (h : (confirm_borrowing o bid st).2 = Except.error msg) :
    (confirm_borrowing o bid st).1 = st := by
  unfold confirm_borrowing at h ⊢
  cases hf : findBorrowing st bid with
  | none => simp only [hf]
  | some b =>
    simp only [hf] at h ⊢
    split_ifs at h ⊢ <;> rfl

/-- C9 witness: confirming somebody else's borrowing fails and leaves the
state untouched. -/
theorem confirm_borrowing_atomic_on_failure_witness :
    (confirm_borrowing "anna" "borrowing-1" exampleSt).2 =
        Except.error "Only the lender/owner can confirm this borrowing" ∧
      (confirm_borrowing "anna" "borrowing-1" exampleSt).1 = exampleSt :=
  ⟨by decide,
    confirm_borrowing_atomic_on_failure "anna" "borrowing-1" exampleSt
      "Only the lender/owner can confirm this borrowing" (by decide)⟩

/-! ## Reconciled states and transparency of the pass on valid data -/

theorem cleanupState_of_valid (s : St)
    (hI : ∀ x ∈ s.items, itemKeep (residentIds s.residents) x = true ∧
      ITEM_STATUSES.contains x.status = true)
    (hB : ∀ b ∈ s.borrowings, borrowKeep (residentIds s.residents)
      (s.items.map (fun it => it.id)) b = true) :
    cleanupState s = { s with items := recomputeItems s.borrowings s.items } := by
  have h1 : cleanItems (residentIds s.residents) s.items = s.items := by
    unfold cleanItems
    rw [List.filter_eq_self.mpr (fun x hx => (hI x hx).1)]
    exact map_eq_self_of _ _
      (fun x hx => by unfold itemNormalize; rw [if_pos (hI x hx).2])
  have h2 : cleanBorrows (residentIds s.residents)
      (s.items.map (fun it => it.id)) s.borrowings = s.borrowings := by
    unfold cleanBorrows
    exact List.filter_eq_self.mpr hB
  show ({ s with
      items := recomputeItems
        (cleanBorrows (residentIds s.residents)
          ((cleanItems (residentIds s.residents) s.items).map (fun it => it.id)) s.borrowings)
        (cleanItems (residentIds s.residents) s.items),
      borrowings := cleanBorrows (residentIds s.residents)
        ((cleanItems (residentIds s.residents) s.items).map (fun it => it.id))
        s.borrowings } : St) = _
  rw [h1, h2]

theorem cleanup_fix_items_valid {s : St} (hclean : cleanupState s = s) :
    ∀ x ∈ s.items, itemKeep (residentIds s.residents) x = true ∧
      ITEM_STATUSES.contains x.status = true := by
  intro x hx
  rw [← hclean] at hx
  exact cleanupState_items_valid s x hx

theorem cleanup_fix_map_id {s : St} (hclean : cleanupState s = s) :
    (cleanItems (residentIds s.residents) s.items).map (fun it => it.id) =
      s.items.map (fun it => it.id) := by
  conv_rhs => rw [← hclean]
  exact (cleanupState_map_id s).symm

theorem cleanup_fix_borrowings_valid {s : St} (hclean : cleanupState s = s) :
    ∀ b ∈ s.borrowings, borrowKeep (residentIds s.residents)
      (s.items.map (fun it => it.id)) b = true := by
  intro b hb
  rw [← cleanup_fix_map_id hclean]
  apply cleanupState_borrowings_valid s
  rw [hclean]
  exact hb

theorem borrowKeep_set_status (rids iids : List String) (y : Borrowing) (st' : String)
    (hy : borrowKeep rids iids y = true) (hst : BORROW_STATUSES.contains st' = true) :
    borrowKeep rids iids { y with status := st' } = true := by
  unfold borrowKeep at hy ⊢
  simp only [Bool.and_eq_true] at hy ⊢
  exact ⟨hy.1, hst⟩

/-- Effects of the confirm mutation followed by the persist-time
reconciliation, on a reconciled state. -/
theorem confirm_cleanup_effects (s : St) (hclean : cleanupState s = s)
    (bid : String) (b0 : Borrowing) (hfind : findBorrowing s bid = some b0)
    (stM : St)
    (hstM : stM = { s with
      borrowings := updateFirst (fun x => x.id == bid)
        (fun x => { x with status := "active" }) s.borrowings,
      items := updateFirst (fun it => it.id == b0.item_id)
        (fun it => { it with status := "borrowed" }) s.items,
      impact := { s.impact with
        borrows_count := s.impact.borrows_count + 1,
        co2_saved_kg := s.impact.co2_saved_kg + CO2_PER_BORROW_KG,
        waste_avoided_kg := s.impact.waste_avoided_kg + WASTE_PER_BORROW_KG } }) :
    findBorrowing (cleanupState stM) bid = some { b0 with status := "active" } ∧
    (∃ it, findItem (cleanupState stM) b0.item_id = some it ∧ it.status = "borrowed") ∧
    (cleanupState stM).impact = stM.impact := by
  have hfind' : s.borrowings.find? (fun b => b.id == bid) = some b0 := hfind
  have hmem : b0 ∈ s.borrowings := List.mem_of_find?_eq_some hfind'
  have hpb0' := List.find?_some hfind'
  have hpb0 : (b0.id == bid) = true := hpb0'
  have hIvalid := cleanup_fix_items_valid hclean
  have hBvalid := cleanup_fix_borrowings_valid hclean
  set fB : Borrowing → Borrowing := fun x => { x with status := "active" } with hfB
  set pB : Borrowing → Bool := fun x => x.id == bid with hpB
  set fI : Item → Item := fun it => { it with status := "borrowed" } with hfI
  set pI : Item → Bool := fun it => it.id == b0.item_id with hpI
  have hres : stM.residents = s.residents := by rw [hstM]
  have hitems : stM.items = updateFirst pI fI s.items := by rw [hstM]
  have hborr : stM.borrowings = updateFirst pB fB s.borrowings := by rw [hstM]
  have hmapid : (updateFirst pI fI s.items).map (fun it => it.id) =
      s.items.map (fun it => it.id) := by
    apply map_updateFirst
    intro x
    rfl
  have hI' : ∀ x ∈ updateFirst pI fI s.items,
      itemKeep (residentIds s.residents) x = true ∧
        ITEM_STATUSES.contains x.status = true := by
    intro x hx
    rcases mem_updateFirst hx with hx' | ⟨y, hy, _, hxy⟩
    · exact hIvalid x hx'
    · refine ⟨?_, ?_⟩
      · rw [hxy]
        exact (hIvalid y hy).1
      · rw [hxy]
        rfl
  have hB' : ∀ b ∈ updateFirst pB fB s.borrowings,
      borrowKeep (residentIds s.residents)
        ((updateFirst pI fI s.items).map (fun it => it.id)) b = true := by
    intro b hb
    rw [hmapid]
    rcases mem_updateFirst hb with hb' | ⟨y, hy, _, hby⟩
    · exact hBvalid b hb'
    · rw [hby]
      exact borrowKeep_set_status _ _ y "active" (hBvalid y hy) (by decide)
  have hIstM : ∀ x ∈ stM.items, itemKeep (residentIds stM.residents) x = true ∧
      ITEM_STATUSES.contains x.status = true := by
    intro x hx
    rw [hitems] at hx
    rw [hres]
    exact hI' x hx
  have hBstM : ∀ b ∈ stM.borrowings, borrowKeep (residentIds stM.residents)
      (stM.items.map (fun it => it.id)) b = true := by
    intro b hb
    rw [hborr] at hb
    rw [hres, hitems]
    exact hB' b hb
  have hcleanM := cleanupState_of_valid stM hIstM hBstM
  rw [hcleanM]
  refine ⟨?_, ?_, rfl⟩
  · show stM.borrowings.find? (fun b => b.id == bid) = some (fB b0)
    rw [hborr]
    exact find?_updateFirst_self hpb0 hfind'
  · show ∃ it, (recomputeItems stM.borrowings stM.items).find?
      (fun it => it.id == b0.item_id) = some it ∧ it.status = "borrowed"
    rw [hborr, hitems]
    -- an item with id `b0.item_id` survives, and its status is re-derived to
    -- "borrowed" because the activated borrowing references it
    have hinitems : b0.item_id ∈ (updateFirst pI fI s.items).map (fun it => it.id) := by
      rw [hmapid]
      have hkeep := hBvalid b0 hmem
      unfold borrowKeep at hkeep
      simp only [Bool.and_eq_true] at hkeep
      exact List.elem_iff.mp hkeep.1.1.1.2.2
    obtain ⟨x1, hx1mem, hx1id⟩ := List.mem_map.mp hinitems
    obtain ⟨y1, hy1⟩ := find?_key_isSome (fun it : Item => it.id) b0.item_id _
      ⟨x1, hx1mem, by show (x1.id == b0.item_id) = true; rw [hx1id]; exact beq_self_eq_true _⟩
    have hy1id : y1.id = b0.item_id := by
      have h := List.find?_some hy1
      simpa using h
    have hfound := find?_map_of_key (fun it : Item => it.id)
      (fun it => { it with
        status := deriveStatus
          (borrowStatusesFor (updateFirst pB fB s.borrowings) it.id) it.status })
      (fun z => z == b0.item_id) (fun _ => rfl) _ hy1
    refine ⟨_, hfound, ?_⟩
    show deriveStatus (borrowStatusesFor (updateFirst pB fB s.borrowings) y1.id) y1.status =
      "borrowed"
    have hactive : ("active" : String) ∈
        borrowStatusesFor (updateFirst pB fB s.borrowings) y1.id := by
      unfold borrowStatusesFor
      apply List.mem_map.mpr
      refine ⟨fB b0, ?_, rfl⟩
      apply List.mem_filter.mpr
      refine ⟨updateFirst_mem_self hfind', ?_⟩
      rw [hy1id]
      exact beq_self_eq_true b0.item_id
    unfold deriveStatus
    rw [if_pos (List.elem_iff.mpr hactive)]

/-- C5: `confirm_borrowing(owner, borrowingId)` on a reconciled state
succeeds iff the borrowing exists, the caller equals its `lender_id`, and its
status is `waiting_for_confirm`; on success the borrowing's status becomes
`active`, the referenced item's status becomes `borrowed`, and the impact
counters `borrows_count`, `co2_saved_kg`, `waste_avoided_kg` increase by the
fixed per-borrow constants; in every other case it fails with an explicit
error. -/
theorem confirm_borrowing_spec (o bid : String) (s : St)
    (hclean : cleanupState s = s) :
    ((∃ b', (confirm_borrowing o bid s).2 = Except.ok b') ↔
      (∃ b, findBorrowing s bid = some b ∧ b.lender_id = o ∧
        b.status = "waiting_for_confirm")) ∧
    (∀ b0, findBorrowing s bid = some b0 → b0.lender_id = o →
      b0.status = "waiting_for_confirm" →
      (confirm_borrowing o bid s).2 = Except.ok { b0 with status := "active" } ∧
      findBorrowing (confirm_borrowing o bid s).1 bid =
        some { b0 with status := "active" } ∧
      (∃ it, findItem (confirm_borrowing o bid s).1 b0.item_id = some it ∧
        it.status = "borrowed") ∧
      (confirm_borrowing o bid s).1.impact.borrows_count =
        s.impact.borrows_count + 1 ∧
      (confirm_borrowing o bid s).1.impact.co2_saved_kg =
        s.impact.co2_saved_kg + CO2_PER_BORROW_KG ∧
      (confirm_borrowing o bid s).1.impact.waste_avoided_kg =
        s.impact.waste_avoided_kg + WASTE_PER_BORROW_KG) ∧
    ((¬ ∃ b, findBorrowing s bid = some b ∧ b.lender_id = o ∧
        b.status = "waiting_for_confirm") →
      ∃ msg, (confirm_borrowing o bid s).2 = Except.error msg) := by
  have hbranch : ∀ b0, findBorrowing s bid = some b0 → b0.lender_id = o →
      b0.status = "waiting_for_confirm" →
      confirm_borrowing o bid s =
        (cleanupState { s with
          borrowings := updateFirst (fun x => x.id == bid)
            (fun x => { x with status := "active" }) s.borrowings,
          items := updateFirst (fun it => it.id == b0.item_id)
            (fun it => { it with status := "borrowed" }) s.items,
          impact := { s.impact with
            borrows_count := s.impact.borrows_count + 1,
            co2_saved_kg := s.impact.co2_saved_kg + CO2_PER_BORROW_KG,
            waste_avoided_kg := s.impact.waste_avoided_kg + WASTE_PER_BORROW_KG } },
          Except.ok { b0 with status := "active" }) := by
    intro b0 hfind hlend hstat
    have c1 : (b0.lender_id != o) = false := by simp [hlend]
    have c2 : (b0.status != "waiting_for_confirm") = false := by simp [hstat]
    simp only [confirm_borrowing, hfind, c1, c2, Bool.false_eq_true, if_false]
  refine ⟨⟨?_, ?_⟩, ?_, ?_⟩
  · -- success implies the guard condition
    rintro ⟨b', hb'⟩
    cases hf : findBorrowing s bid with
    | none => simp [confirm_borrowing, hf] at hb'
    | some b =>
      simp only [confirm_borrowing, hf] at hb'
      by_cases hl : b.lender_id = o
      · by_cases hs : b.status = "waiting_for_confirm"
        · exact ⟨b, rfl, hl, hs⟩
        · have c1 : (b.lender_id != o) = false := by simp [hl]
          have c2 : (b.status != "waiting_for_confirm") = true := by simp [hs]
          simp [c1, c2] at hb'
      · have c1 : (b.lender_id != o) = true := by simp [hl]
        simp [c1] at hb'
  · -- the guard condition implies success
    rintro ⟨b0, hfind, hlend, hstat⟩
    exact ⟨{ b0 with status := "active" }, by rw [hbranch b0 hfind hlend hstat]⟩
  · -- effects of a successful confirmation
    intro b0 hfind hlend hstat
    have heff := confirm_cleanup_effects s hclean bid b0 hfind _ rfl
    rw [hbranch b0 hfind hlend hstat]
    exact ⟨rfl, heff.1, heff.2.1, congrArg Impact.borrows_count heff.2.2,
      congrArg Impact.co2_saved_kg heff.2.2, congrArg Impact.waste_avoided_kg heff.2.2⟩
  · -- all other cases fail with an explicit error
    intro hnone
    cases hf : findBorrowing s bid with
    | none => exact ⟨"Borrowing not found", by simp [confirm_borrowing, hf]⟩
    | some b =>
      by_cases hl : b.lender_id = o
      · by_cases hs : b.status = "waiting_for_confirm"
        · exact absurd ⟨b, hf, hl, hs⟩ hnone
        · refine ⟨"Borrowing is not waiting for confirmation", ?_⟩
          have c1 : (b.lender_id != o) = false := by simp [hl]
          have c2 : (b.status != "waiting_for_confirm") = true := by simp [hs]
          simp [confirm_borrowing, hf, c1, c2]
      · refine ⟨"Only the lender/owner can confirm this borrowing", ?_⟩
        have c1 : (b.lender_id != o) = true := by simp [hl]
        simp [confirm_borrowing, hf, c1]

/-- C5 witness: Peter confirms Anna's pending borrowing in the example
state. -/
theorem confirm_borrowing_spec_witness :
    cleanupState exampleSt = exampleSt ∧
      (confirm_borrowing "peter" "borrowing-1" exampleSt).2 =
        Except.ok { exampleBorrowing with status := "active" } ∧
      (confirm_borrowing "peter" "borrowing-1" exampleSt).1.impact.borrows_count =
        exampleSt.impact.borrows_count + 1 :=
  ⟨by decide,
    ((confirm_borrowing_spec "peter" "borrowing-1" exampleSt (by decide)).2.1
      exampleBorrowing (by decide) rfl rfl).1,
    (((confirm_borrowing_spec "peter" "borrowing-1" exampleSt (by decide)).2.1
      exampleBorrowing (by decide) rfl rfl).2.2.2).1⟩

/-! ## The `mark_returned` and unknown-action behaviour of `apply_action` -/

theorem cleanupState_impact (s : St) : (cleanupState s).impact = s.impact := rfl

/-- C6: for every `mark_returned` action — an unknown borrowing id yields a
reported, non-fatal null outcome; an already-`returned` borrowing yields the
distinct `already_returned` result, changes no record, and leaves the impact
counters untouched; otherwise the borrowing's status is set to `returned`
and the referenced item's status to `available` (followed by the persist-time
reconciliation), again without touching the impact counters. -/
theorem mark_returned_spec (u intent now bid : String) (md : Metadata) (st : St)
    (hbid : md.borrowing_id = some bid) (hbne : bid ≠ "") :
    (findBorrowing st bid = none →
      apply_action u intent (some ⟨"mark_returned", some md⟩) now st =
        (cleanupState st, none)) ∧
    (∀ b, findBorrowing st bid = some b → b.status = "returned" →
      apply_action u intent (some ⟨"mark_returned", some md⟩) now st =
        (cleanupState st, some (ActionResult.already_returned bid)) ∧
      (apply_action u intent (some ⟨"mark_returned", some md⟩) now st).1.impact =
        st.impact) ∧
    (∀ b, findBorrowing st bid = some b → b.status ≠ "returned" →
      apply_action u intent (some ⟨"mark_returned", some md⟩) now st =
        (cleanupState { st with
          borrowings := updateFirst (fun x => x.id == bid)
            (fun x => { x with status := "returned" }) st.borrowings,
          items := updateFirst (fun it => it.id == b.item_id)
            (fun it => { it with status := "available" }) st.items },
          some (ActionResult.marked_returned bid)) ∧
      (apply_action u intent (some ⟨"mark_returned", some md⟩) now st).1.impact =
        st.impact) := by
  have hact : apply_action u intent (some ⟨"mark_returned", some md⟩) now st =
      (cleanupState (markReturnedBranch md st).1, (markReturnedBranch md st).2) := rfl
  have htruthy : strTruthy md.borrowing_id = true := by
    rw [hbid]
    simp [strTruthy, hbne]
  have hgetd : md.borrowing_id.getD "" = bid := by rw [hbid]; rfl
  refine ⟨?_, ?_, ?_⟩
  · intro hf
    have hbr : markReturnedBranch md st = (st, none) := by
      simp [markReturnedBranch, htruthy, hgetd, hf]
    rw [hact, hbr]
  · intro b hf hst
    have hbeq : (b.status == "returned") = true := by simp [hst]
    have hbr : markReturnedBranch md st = (st, some (ActionResult.already_returned bid)) := by
      simp [markReturnedBranch, htruthy, hgetd, hf, hbeq]
    rw [hact, hbr]
    exact ⟨rfl, rfl⟩
  · intro b hf hst
    have hbeq : (b.status == "returned") = false := by simp [hst]
    have hbr : markReturnedBranch md st =
        ({ st with
          borrowings := updateFirst (fun x => x.id == bid)
            (fun x => { x with status := "returned" }) st.borrowings,
          items := updateFirst (fun it => it.id == b.item_id)
            (fun it => { it with status := "available" }) st.items },
          some (ActionResult.marked_returned bid)) := by
      simp [markReturnedBranch, htruthy, hgetd, hf, hbeq]
    rw [hact, hbr]
    exact ⟨rfl, rfl⟩

/-- C6 witness: Anna returns the active borrowing of the example state. -/
theorem mark_returned_spec_witness :
    (apply_action "anna" "return_item"
        (some ⟨"mark_returned", ({ borrowing_id := some "borrowing-1" } : Metadata)⟩)
        "t1" exampleStActive).2 = some (ActionResult.marked_returned "borrowing-1") ∧
      (apply_action "anna" "return_item"
        (some ⟨"mark_returned", ({ borrowing_id := some "borrowing-1" } : Metadata)⟩)
        "t1" exampleStActive).1.impact = exampleStActive.impact := by
  have h := (mark_returned_spec "anna" "return_item" "t1" "borrowing-1"
      { borrowing_id := some "borrowing-1" } exampleStActive rfl (by decide)).2.2
    exampleBorrowingActive (by decide) (by decide)
  exact ⟨by rw [h.1], h.2⟩

/-- C7 (amended): a null action is a no-op that still triggers a
reconciliation + persist write; an action whose kind is outside the closed
set `{create_borrow, mark_returned, register_disposal_intent, register_item}`
is also a no-op, but it falls off the end of `apply_action` and returns
*without* the reconciliation + persist write, leaving the state exactly as it
was. -/
theorem unknown_action_noop_amended (u intent now : String) (st : St) :
    apply_action u intent none now st = (cleanupState st, none) ∧
    (∀ a : Action,
      a.action_type ≠ "create_borrow" → a.action_type ≠ "mark_returned" →
      a.action_type ≠ "register_disposal_intent" → a.action_type ≠ "register_item" →
      apply_action u intent (some a) now st = (st, none)) := by
  refine ⟨rfl, ?_⟩
  intro a h1 h2 h3 h4
  have c1 : (a.action_type == "create_borrow") = false := by simp [h1]
  have c2 : (a.action_type == "mark_returned") = false := by simp [h2]
  have c3 : (a.action_type == "register_disposal_intent") = false := by simp [h3]
  have c4 : (a.action_type == "register_item") = false := by simp [h4]
  simp [apply_action, c1, c2, c3, c4]

/-- C7 witness: an action of unknown kind is a no-op. -/
theorem unknown_action_noop_amended_witness :
    apply_action "anna" "small_talk" (some ⟨"noop", none⟩) "t1" exampleSt =
      (exampleSt, none) :=
  (unknown_action_noop_amended "anna" "small_talk" "t1" exampleSt).2
    ⟨"noop", none⟩ (by decide) (by decide) (by decide) (by decide)

/-- C7 counterexample: on a corrupted state, an action of unknown kind
returns the state untouched even though reconciliation would change it — so
the claimed "reconciliation + persist write" does not happen for unknown
action kinds. -/
theorem unknown_action_no_persist_counterexample :
    apply_action "anna" "noop" (some ⟨"noop", none⟩) "t1" dirtySt = (dirtySt, none) ∧
      cleanupState dirtySt ≠ dirtySt := by
  exact ⟨rfl, by decide⟩

/-! ## Disposal aggregation: threshold behaviour and id reuse -/

/-- C4 counterexample: with the threshold constant 2, three
`register_disposal_intent` actions tagged `"books"` by three different users
do *not* behave as claimed — the third action emits no event at all (the
only event was emitted by the second action, with `intents_count == 2`), and
one disposal intent tagged `"books"` remains afterwards. -/
theorem disposal_threshold_counterexample :
    ((apply_action "cyril" "get_rid_of_items" (some (catsAction "books")) "t3"
        (apply_action "bob" "get_rid_of_items" (some (catsAction "books")) "t2"
          (apply_action "anna" "get_rid_of_items" (some (catsAction "books")) "t1"
            emptySt).1).1).1).events.length =
      ((apply_action "bob" "get_rid_of_items" (some (catsAction "books")) "t2"
        (apply_action "anna" "get_rid_of_items" (some (catsAction "books")) "t1"
          emptySt).1).1).events.length ∧
    ((apply_action "bob" "get_rid_of_items" (some (catsAction "books")) "t2"
        (apply_action "anna" "get_rid_of_items" (some (catsAction "books")) "t1"
          emptySt).1).1).events.map (fun e => (e.category, e.intents_count)) =
      [("books", 2)] ∧
    (((apply_action "cyril" "get_rid_of_items" (some (catsAction "books")) "t3"
        (apply_action "bob" "get_rid_of_items" (some (catsAction "books")) "t2"
          (apply_action "anna" "get_rid_of_items" (some (catsAction "books")) "t1"
            emptySt).1).1).1).disposal_intents.filter
        (fun d => d.tags.contains "books")).length = 1 := by
  decide

/-- C4 (amended): with the disposal threshold configured to 2, if three
disposal intents tagged "books" are created by three different users, each
through its own `register_disposal_intent` action, then the processing of
the *second* intent emits exactly one collection event whose metadata has
`intents_count == 2` and removes every disposal intent tagged "books"; the
processing of the third intent emits no event and leaves exactly one
disposal intent tagged "books" in the store. -/
theorem disposal_threshold_amended (u1 u2 u3 t1 t2 t3 : String) :
    ((apply_action u2 "get_rid_of_items" (some (catsAction "books")) t2
        (apply_action u1 "get_rid_of_items" (some (catsAction "books")) t1
          emptySt).1).1).events.map (fun e => (e.category, e.intents_count)) =
      [("books", 2)] ∧
    ((apply_action u2 "get_rid_of_items" (some (catsAction "books")) t2
        (apply_action u1 "get_rid_of_items" (some (catsAction "books")) t1
          emptySt).1).1).disposal_intents = [] ∧
    ((apply_action u3 "get_rid_of_items" (some (catsAction "books")) t3
        (apply_action u2 "get_rid_of_items" (some (catsAction "books")) t2
          (apply_action u1 "get_rid_of_items" (some (catsAction "books")) t1
            emptySt).1).1).1).events =
      ((apply_action u2 "get_rid_of_items" (some (catsAction "books")) t2
        (apply_action u1 "get_rid_of_items" (some (catsAction "books")) t1
          emptySt).1).1).events ∧
    ((apply_action u3 "get_rid_of_items" (some (catsAction "books")) t3
        (apply_action u2 "get_rid_of_items" (some (catsAction "books")) t2
          (apply_action u1 "get_rid_of_items" (some (catsAction "books")) t1
            emptySt).1).1).1).disposal_intents.map (fun d => (d.name, d.tags)) =
      [("books", ["books"])] := by
  exact ⟨rfl, rfl, rfl, rfl⟩

/-- C10: record ids are not guaranteed unique — ids are `prefix-(len+1)` and
the disposal sweep removes records from the middle of the store, so a
reachable sequence of four `register_disposal_intent` actions leaves two
distinct disposal intents that share the id `disposal-2`. -/
theorem disposal_id_collision :
    ((apply_action "dana" "get_rid_of_items" (some (catsAction "c")) "t4"
      (apply_action "cyril" "get_rid_of_items" (some (catsAction "a")) "t3"
        (apply_action "bob" "get_rid_of_items" (some (catsAction "b")) "t2"
          (apply_action "anna" "get_rid_of_items" (some (catsAction "a")) "t1"
            emptySt).1).1).1).1).disposal_intents.map (fun d => (d.id, d.name)) =
        [("disposal-2", "b"), ("disposal-2", "c")] ∧
      ¬ (((apply_action "dana" "get_rid_of_items" (some (catsAction "c")) "t4"
        (apply_action "cyril" "get_rid_of_items" (some (catsAction "a")) "t3"
          (apply_action "bob" "get_rid_of_items" (some (catsAction "b")) "t2"
            (apply_action "anna" "get_rid_of_items" (some (catsAction "a")) "t1"
              emptySt).1).1).1).1).disposal_intents.map (fun d => d.id)).Nodup := by
  exact ⟨by decide, by decide⟩

/-! ## Normalizer: parse failure -/

/-- C8: for any collaborator response on which all decode strategies fail —
the direct (and double-encoded) JSON decode of the stripped text and the
decode of each balanced `\x7b...\x7d` / `[...]` substring — the normalizer
raises a structured parse failure whose diagnostic carries the original raw
text. -/
theorem parse_failure_carries_raw (text : String)
    (h1 : (tryJsonDecode (pyStrip text)).isNone = true)
    (h2 : ∀ c ∈ jsonCandidates text.toList, (tryJsonDecode c).isNone = true) :
    safeJsonFromResponse text =
      Except.error ("Failed to parse AI response as JSON; raw: " ++ text) := by
  have h1' : tryJsonDecode (pyStrip text) = none := Option.isNone_iff_eq_none.mp h1
  have h2' : (jsonCandidates text.toList).findSome? (fun c => tryJsonDecode c) = none := by
    apply List.findSome?_eq_none_iff.mpr
    intro c hc
    exact Option.isNone_iff_eq_none.mp (h2 c hc)
  unfold safeJsonFromResponse
  rw [h1', h2']

/-- C8 witness: the truncated reply of the specification scenario defeats
all three decode strategies and produces the structured failure. -/
theorem parse_failure_carries_raw_witness :
    (tryJsonDecode (pyStrip truncatedReply)).isNone = true ∧
      jsonCandidates truncatedReply.toList = [] ∧
      safeJsonFromResponse truncatedReply =
        Except.error ("Failed to parse AI response as JSON; raw: " ++ truncatedReply) :=
  ⟨by decide, by decide,
    parse_failure_carries_raw truncatedReply (by decide) (by decide)⟩

/-! ## Normalizer: ownership guard lemmas -/

theorem sanitizeRegisterItem_action_type (u i : String) (act : Action) (md0 : Metadata) :
    (sanitizeRegisterItem u i act md0).1.action_type = act.action_type := by
  unfold sanitizeRegisterItem
  cases hmd : md0.owner_id <;> dsimp only <;> split_ifs <;> rfl

theorem sanitizeRegisterItem_md_eq (u i : String) (act : Action) (md0 : Metadata)
    (hmd0 : md0 = act.metadata.getD emptyMetadata) :
    (sanitizeRegisterItem u i act md0).1.metadata.getD emptyMetadata =
      (sanitizeRegisterItem u i act md0).2.1 := by
  unfold sanitizeRegisterItem
  cases hmd : md0.owner_id <;> dsimp only <;> split_ifs <;> first | exact hmd0.symm | simp

theorem sanitizeRegisterItem_metadata_of_cond (u i : String) (act : Action) (md0 : Metadata)
    (hmd0 : md0 = act.metadata.getD emptyMetadata)
    (hcond : (i == "register_item" || i == "offer_item"
      || act.action_type == "register_item") = true) :
    (sanitizeRegisterItem u i act md0).1.metadata =
      some (sanitizeRegisterItem u i act md0).2.1 ∧
    (sanitizeRegisterItem u i act md0).2.1.owner_id = some u := by
  unfold sanitizeRegisterItem
  rw [if_pos hcond]
  cases hmd : md0.owner_id with
  | none => exact ⟨rfl, rfl⟩
  | some o =>
    dsimp only
    by_cases ho : (o == u) = true
    · rw [if_pos ho]
      have hou : o = u := by simpa using ho
      refine ⟨?_, by rw [hmd, hou]⟩
      cases hact : act.metadata with
      | none =>
        exfalso
        rw [hact] at hmd0
        rw [hmd0] at hmd
        simp [emptyMetadata] at hmd
      | some m =>
        rw [hact] at hmd0
        simp at hmd0
        rw [hmd0]
    · rw [if_neg ho]
      exact ⟨rfl, rfl⟩

theorem sanitizeRegisterItem_items (u i : String) (act : Action) (md0 : Metadata) :
    (sanitizeRegisterItem u i act md0).2.1.items = md0.items := by
  unfold sanitizeRegisterItem
  cases hmd : md0.owner_id <;> dsimp only <;> split_ifs <;> rfl

theorem sanitizeRegisterItem_notice_of_mismatch (u i : String) (act : Action)
    (md0 : Metadata) (o : String)
    (hcond : (i == "register_item" || i == "offer_item"
      || act.action_type == "register_item") = true)
    (ho : md0.owner_id = some o) (hne : o ≠ u) :
    (sanitizeRegisterItem u i act md0).2.2 = some (ownershipNoticeText u) := by
  unfold sanitizeRegisterItem
  rw [if_pos hcond, ho]
  dsimp only
  rw [if_neg (by simpa using hne)]

theorem sanitizeDispItem_owner (u : String) (it : DispItemMeta) :
    (sanitizeDispItem u it).owner_id = some u := by
  unfold sanitizeDispItem
  cases ho : it.owner_id with
  | none => rfl
  | some o =>
    dsimp only
    by_cases hou : (o == u) = true
    · rw [if_pos hou, ho]
      have hoe : o = u := by simpa using hou
      rw [hoe]
    · rw [if_neg hou]

theorem sanitizeDisposalList_action_type (u i : String) (act1 : Action) (md1 : Metadata)
    (n1 : Option String) :
    (sanitizeDisposalList u i act1 md1 n1).1.action_type = act1.action_type := by
  unfold sanitizeDisposalList
  dsimp only
  split_ifs <;> rfl

theorem sanitizeDisposalList_metadata_owner (u i : String) (act1 : Action) (md1 : Metadata)
    (n1 : Option String) (h : act1.metadata = some md1) :
    ∃ md2, (sanitizeDisposalList u i act1 md1 n1).1.metadata = some md2 ∧
      md2.owner_id = md1.owner_id := by
  unfold sanitizeDisposalList
  dsimp only
  split_ifs <;> first | exact ⟨md1, h, rfl⟩ | exact ⟨_, rfl, rfl⟩

theorem sanitizeDisposalList_items_owner (u i : String) (act1 : Action) (md1 : Metadata)
    (n1 : Option String)
    (hcond : (i == "register_disposal_intent" || i == "get_rid_of_items"
      || act1.action_type == "register_disposal_intent") = true)
    (hinv : act1.metadata.getD emptyMetadata = md1) :
    ∀ it ∈ ((sanitizeDisposalList u i act1 md1 n1).1.metadata.getD
      emptyMetadata).items.getD [], it.owner_id = some u := by
  unfold sanitizeDisposalList
  dsimp only
  rw [if_pos hcond]
  by_cases hemp : (md1.items.getD []).isEmpty = true
  · rw [if_pos hemp]
    intro it hit
    rw [hinv] at hit
    rw [List.isEmpty_iff.mp hemp] at hit
    simp at hit
  · rw [if_neg hemp]
    intro it hit
    simp only [Option.getD_some] at hit
    obtain ⟨y, _, hy⟩ := List.mem_map.mp hit
    rw [← hy]
    exact sanitizeDispItem_owner u y

theorem sanitizeDisposalList_notice_some (u i : String) (act1 : Action) (md1 : Metadata)
    (n1 : Option String) (hn : n1 = some (ownershipNoticeText u)) :
    (sanitizeDisposalList u i act1 md1 n1).2 = some (ownershipNoticeText u) := by
  unfold sanitizeDisposalList
  dsimp only
  split_ifs <;> first | rfl | exact hn

theorem sanitizeDisposalList_notice_of_mismatch (u i : String) (act1 : Action)
    (md1 : Metadata) (n1 : Option String)
    (hcond : (i == "register_disposal_intent" || i == "get_rid_of_items"
      || act1.action_type == "register_disposal_intent") = true)
    (hit : ∃ it ∈ md1.items.getD [], ∃ o, it.owner_id = some o ∧ o ≠ u) :
    (sanitizeDisposalList u i act1 md1 n1).2 = some (ownershipNoticeText u) := by
  obtain ⟨it, hmem, o, ho, hne⟩ := hit
  have hmm : (md1.items.getD []).any (dispItemMismatch u) = true := by
    apply List.any_eq_true.mpr
    refine ⟨it, hmem, ?_⟩
    unfold dispItemMismatch
    rw [ho]
    simpa using hne
  have hemp : (md1.items.getD []).isEmpty = false := by
    cases hl : md1.items.getD [] with
    | nil => rw [hl] at hmem; simp at hmem
    | cons a as => rfl
  unfold sanitizeDisposalList
  dsimp only
  rw [if_pos hcond, if_neg (by rw [hemp]; exact Bool.false_ne_true)]
  dsimp only
  rw [hmm, if_pos rfl]

/-! ## Normalizer: interpreter-side ownership lemmas -/

theorem cleanupState_disposal (s : St) :
    (cleanupState s).disposal_intents = s.disposal_intents := rfl

theorem cleanup_items_owner (s : St) :
    ∀ it ∈ (cleanupState s).items,
      it.owner_id ∈ s.items.map (fun x => x.owner_id) := by
  intro it h
  obtain ⟨y, hy, hxy⟩ := mem_recomputeItems h
  obtain ⟨z, hz, _, hyz⟩ := mem_cleanItems hy
  have howner : it.owner_id = z.owner_id := by
    rw [hxy]
    show y.owner_id = z.owner_id
    rw [hyz, itemNormalize_owner]
  rw [howner]
  exact List.mem_map.mpr ⟨z, hz, rfl⟩

theorem orDefault_some_self (u : String) : orDefault (some u) u = u := by
  unfold orDefault
  dsimp only
  split <;> rfl

theorem mkDispFromItems_sub (u now : String) (l : List DispItemMeta)
    (store : List DisposalIntent) :
    ∀ d ∈ (mkDispFromItems u now l store).1,
      d ∈ store ∨ d ∈ (mkDispFromItems u now l store).2 := by
  induction l generalizing store with
  | nil => intro d hd; exact Or.inl hd
  | cons it rest ih =>
    intro d hd
    unfold mkDispFromItems at hd ⊢
    rcases ih _ d hd with hd' | hd'
    · rcases List.mem_append.mp hd' with h | h
      · exact Or.inl h
      · exact Or.inr (by simpa using Or.inl (List.mem_singleton.mp h))
    · exact Or.inr (List.mem_cons_of_mem _ hd')

theorem mkDispFromItems_owner (u now : String) (l : List DispItemMeta)
    (store : List DisposalIntent) (hl : ∀ it ∈ l, it.owner_id = some u) :
    ∀ d ∈ (mkDispFromItems u now l store).2, d.owner_id = u := by
  induction l generalizing store with
  | nil => intro d hd; simp [mkDispFromItems] at hd
  | cons it rest ih =>
    intro d hd
    unfold mkDispFromItems at hd
    rcases List.mem_cons.mp hd with hd' | hd'
    · rw [hd']
      show orDefault it.owner_id u = u
      rw [hl it (by simp)]
      exact orDefault_some_self u
    · exact ih _ (fun x hx => hl x (List.mem_cons_of_mem _ hx)) d hd'

theorem mkDispFromCats_sub (u now : String) (l : List String)
    (store : List DisposalIntent) :
    ∀ d ∈ (mkDispFromCats u now l store).1,
      d ∈ store ∨ d ∈ (mkDispFromCats u now l store).2 := by
  induction l generalizing store with
  | nil => intro d hd; exact Or.inl hd
  | cons c rest ih =>
    intro d hd
    unfold mkDispFromCats at hd ⊢
    rcases ih _ d hd with hd' | hd'
    · rcases List.mem_append.mp hd' with h | h
      · exact Or.inl h
      · exact Or.inr (by simpa using Or.inl (List.mem_singleton.mp h))
    · exact Or.inr (List.mem_cons_of_mem _ hd')

theorem mkDispFromCats_owner (u now : String) (l : List String)
    (store : List DisposalIntent) :
    ∀ d ∈ (mkDispFromCats u now l store).2, d.owner_id = u := by
  induction l generalizing store with
  | nil => intro d hd; simp [mkDispFromCats] at hd
  | cons c rest ih =>
    intro d hd
    unfold mkDispFromCats at hd
    rcases List.mem_cons.mp hd with hd' | hd'
    · rw [hd']
    · exact ih _ d hd'

theorem sweepTags_sub (now : String) (tags : List String) (st : St) :
    ∀ d ∈ (sweepTags now tags st).1.disposal_intents, d ∈ st.disposal_intents := by
  induction tags generalizing st with
  | nil => intro d hd; exact hd
  | cons t ts ih =>
    intro d hd
    unfold sweepTags at hd
    by_cases hc : DISPOSAL_INTENT_THRESHOLD ≤
        (st.disposal_intents.filter (fun it => it.tags.contains t)).length
    · rw [if_pos hc] at hd
      have hd2 := ih _ d hd
      have hd3 := List.mem_filter.mp hd2
      exact hd3.1
    · rw [if_neg hc] at hd
      exact ih _ d hd

theorem registerItemBranch_owner (u now : String) (md : Metadata) (st : St)
    (hmd : md.owner_id = some u) :
    ∀ o ∈ ((registerItemBranch u now md st).1.items.map (fun x => x.owner_id)),
      o = u ∨ o ∈ st.items.map (fun x => x.owner_id) := by
  unfold registerItemBranch
  dsimp only
  split_ifs with hname htags
  · intro o ho
    exact Or.inr ho
  all_goals {
    intro o ho
    rw [List.map_append] at ho
    rcases List.mem_append.mp ho with h | h
    · exact Or.inr h
    · left
      have ho' : o = orDefault md.owner_id u := by simpa using h
      rw [ho', hmd]
      exact orDefault_some_self u
  }

theorem registerDisposalBranch_owner (u now : String) (md : Metadata) (st : St)
    (hmd : ∀ it ∈ md.items.getD [], it.owner_id = some u) :
    ∀ d ∈ (registerDisposalBranch u now md st).1.disposal_intents,
      d.owner_id = u ∨ d ∈ st.disposal_intents := by
  unfold registerDisposalBranch
  dsimp only
  split_ifs with h0 h1 h2 h3
  · intro d hd
    exact Or.inr hd
  · -- items and categories both built
    intro d hd
    have hd2 := sweepTags_sub _ _ _ d hd
    rcases mkDispFromCats_sub _ _ _ _ d hd2 with hd3 | hd3
    · rcases mkDispFromItems_sub _ _ _ _ d hd3 with hd4 | hd4
      · exact Or.inr hd4
      · exact Or.inl (mkDispFromItems_owner u now _ _ hmd d hd4)
    · exact Or.inl (mkDispFromCats_owner u now _ _ d hd3)
  · -- only the items builder ran
    intro d hd
    have hd2 := sweepTags_sub _ _ _ d hd
    rcases mkDispFromItems_sub _ _ _ _ d hd2 with hd3 | hd3
    · exact Or.inr hd3
    · exact Or.inl (mkDispFromItems_owner u now _ _ hmd d hd3)
  · -- only the categories builder ran
    intro d hd
    have hd2 := sweepTags_sub _ _ _ d hd
    rcases mkDispFromCats_sub _ _ _ _ d hd2 with hd3 | hd3
    · exact Or.inr hd3
    · exact Or.inl (mkDispFromCats_owner u now _ _ d hd3)
  · -- neither builder ran
    intro d hd
    exact Or.inr (sweepTags_sub _ _ _ d hd)

theorem enforceOwnership_fst (u i : String) (act : Action) (reply : String) :
    (enforceOwnership u i (some act) reply).1 = some (ownershipPipeline u i act).1 := by
  unfold enforceOwnership
  dsimp only
  split <;> rfl

theorem enforceOwnership_snd_of_notice (u i : String) (act : Action) (reply : String)
    (n : String) (hn : (ownershipPipeline u i act).2 = some n) :
    (enforceOwnership u i (some act) reply).2 =
      pyStrip (pyStrip reply ++ "\n\n" ++ n) := by
  unfold enforceOwnership
  dsimp only
  rw [hn]

/-- C3 (ownership invariant of the untrusted-output normalizer): for every
acting user `u` and every model response whose action kind is
`register_item` or `register_disposal_intent`, after the guard runs every
`owner_id` in the action's metadata (for `register_item`) and in each
element of its `items` list (for `register_disposal_intent`) equals `u` —
a missing owner is filled with `u` and a differing owner is overwritten with
`u`, with the ownership notice appended to the reply — and consequently
every record the action interpreter then creates from the sanitised action
has owner `u`, even when the upstream text specified a different owner. -/
theorem normalizer_ownership_invariant (u intent reply now : String) (act : Action)
    (st : St)
    (hkind : act.action_type = "register_item" ∨
      act.action_type = "register_disposal_intent") :
    ∃ act',
      (enforceOwnership u intent (some act) reply).1 = some act' ∧
      act'.action_type = act.action_type ∧
      (act.action_type = "register_item" →
        ∃ md', act'.metadata = some md' ∧ md'.owner_id = some u) ∧
      (act.action_type = "register_disposal_intent" →
        ∀ it ∈ (act'.metadata.getD emptyMetadata).items.getD [],
          it.owner_id = some u) ∧
      (((act.action_type = "register_item" ∧
          ∃ o, (act.metadata.getD emptyMetadata).owner_id = some o ∧ o ≠ u) ∨
        (act.action_type = "register_disposal_intent" ∧
          ∃ it ∈ (act.metadata.getD emptyMetadata).items.getD [],
            ∃ o, it.owner_id = some o ∧ o ≠ u)) →
        (enforceOwnership u intent (some act) reply).2 =
          pyStrip (pyStrip reply ++ "\n\n" ++ ownershipNoticeText u)) ∧
      (act.action_type = "register_item" →
        ∀ it ∈ (apply_action u intent (some act') now st).1.items,
          it.owner_id = u ∨ it.owner_id ∈ st.items.map (fun x => x.owner_id)) ∧
      (act.action_type = "register_disposal_intent" →
        ∀ d ∈ (apply_action u intent (some act') now st).1.disposal_intents,
          d.owner_id = u ∨ d ∈ st.disposal_intents) := by
  set s1 := sanitizeRegisterItem u intent act (act.metadata.getD emptyMetadata) with hs1
  have hpipe : ownershipPipeline u intent act =
      sanitizeDisposalList u intent s1.1 s1.2.1 s1.2.2 := rfl
  have hat : (ownershipPipeline u intent act).1.action_type = act.action_type := by
    rw [hpipe, sanitizeDisposalList_action_type, hs1, sanitizeRegisterItem_action_type]
  -- the sanitised metadata facts, per action kind
  have hri_md : act.action_type = "register_item" →
      ∃ md', (ownershipPipeline u intent act).1.metadata = some md' ∧
        md'.owner_id = some u := by
    intro hri
    have hcond1 : (intent == "register_item" || intent == "offer_item"
        || act.action_type == "register_item") = true := by simp [hri]
    have h3 := sanitizeRegisterItem_metadata_of_cond u intent act
      (act.metadata.getD emptyMetadata) rfl hcond1
    obtain ⟨md2, hmd2, hmd2o⟩ :=
      sanitizeDisposalList_metadata_owner u intent s1.1 s1.2.1 s1.2.2 h3.1
    exact ⟨md2, by rw [hpipe]; exact hmd2, by rw [hmd2o, h3.2]⟩
  have hrd_md : act.action_type = "register_disposal_intent" →
      ∀ it ∈ ((ownershipPipeline u intent act).1.metadata.getD
        emptyMetadata).items.getD [], it.owner_id = some u := by
    intro hrd
    have hcond2 : (intent == "register_disposal_intent" || intent == "get_rid_of_items"
        || s1.1.action_type == "register_disposal_intent") = true := by
      rw [hs1, sanitizeRegisterItem_action_type]
      simp [hrd]
    have hinv := sanitizeRegisterItem_md_eq u intent act
      (act.metadata.getD emptyMetadata) rfl
    have hio := sanitizeDisposalList_items_owner u intent s1.1 s1.2.1 s1.2.2 hcond2 hinv
    rw [hpipe]
    exact hio
  refine ⟨(ownershipPipeline u intent act).1,
    enforceOwnership_fst u intent act reply, hat, hri_md, hrd_md, ?_, ?_, ?_⟩
  · -- a differing owner triggers the appended notice
    rintro (⟨hri, o, ho, hne⟩ | ⟨hrd, hit⟩)
    · have hcond1 : (intent == "register_item" || intent == "offer_item"
          || act.action_type == "register_item") = true := by simp [hri]
      have hn1 := sanitizeRegisterItem_notice_of_mismatch u intent act
        (act.metadata.getD emptyMetadata) o hcond1 ho hne
      have hn2 := sanitizeDisposalList_notice_some u intent s1.1 s1.2.1 s1.2.2
        (by rw [hs1, hn1])
      exact enforceOwnership_snd_of_notice u intent act reply _ (by rw [hpipe, hn2])
    · have hcond2 : (intent == "register_disposal_intent" || intent == "get_rid_of_items"
          || s1.1.action_type == "register_disposal_intent") = true := by
        rw [hs1, sanitizeRegisterItem_action_type]
        simp [hrd]
      have hit' : ∃ it ∈ s1.2.1.items.getD [], ∃ o, it.owner_id = some o ∧ o ≠ u := by
        rw [hs1, sanitizeRegisterItem_items]
        exact hit
      have hn2 := sanitizeDisposalList_notice_of_mismatch u intent s1.1 s1.2.1 s1.2.2
        hcond2 hit'
      exact enforceOwnership_snd_of_notice u intent act reply _ (by rw [hpipe, hn2])
  · -- records created by `register_item` carry owner `u`
    intro hri
    obtain ⟨md2, hmd2, hmd2o⟩ := hri_md hri
    have hat' : (ownershipPipeline u intent act).1.action_type = "register_item" := by
      rw [hat, hri]
    have e1 : ((ownershipPipeline u intent act).1.action_type == "create_borrow") = false := by
      simp [hat']
    have e2 : ((ownershipPipeline u intent act).1.action_type == "mark_returned") = false := by
      simp [hat']
    have e3 : ((ownershipPipeline u intent act).1.action_type ==
        "register_disposal_intent") = false := by simp [hat']
    have e4 : ((ownershipPipeline u intent act).1.action_type == "register_item") = true := by
      simp [hat']
    have happ : apply_action u intent (some (ownershipPipeline u intent act).1) now st =
        (cleanupState (registerItemBranch u now
            ((ownershipPipeline u intent act).1.metadata.getD emptyMetadata) st).1,
          (registerItemBranch u now
            ((ownershipPipeline u intent act).1.metadata.getD emptyMetadata) st).2) := by
      simp [apply_action, e1, e2, e3, e4]
    intro it hmem
    rw [happ] at hmem
    have howner := cleanup_items_owner _ it hmem
    have hmdo : ((ownershipPipeline u intent act).1.metadata.getD
        emptyMetadata).owner_id = some u := by
      rw [hmd2]
      exact hmd2o
    rcases registerItemBranch_owner u now _ st hmdo it.owner_id howner with h | h
    · exact Or.inl h
    · exact Or.inr h
  · -- records created by `register_disposal_intent` carry owner `u`
    intro hrd
    have hat' : (ownershipPipeline u intent act).1.action_type =
        "register_disposal_intent" := by rw [hat, hrd]
    have e1 : ((ownershipPipeline u intent act).1.action_type == "create_borrow") = false := by
      simp [hat']
    have e2 : ((ownershipPipeline u intent act).1.action_type == "mark_returned") = false := by
      simp [hat']
    have e3 : ((ownershipPipeline u intent act).1.action_type ==
        "register_disposal_intent") = true := by simp [hat']
    have happ : apply_action u intent (some (ownershipPipeline u intent act).1) now st =
        (cleanupState (registerDisposalBranch u now
            ((ownershipPipeline u intent act).1.metadata.getD emptyMetadata) st).1,
          (registerDisposalBranch u now
            ((ownershipPipeline u intent act).1.metadata.getD emptyMetadata) st).2) := by
      simp [apply_action, e1, e2, e3]
    intro d hd
    rw [happ] at hd
    exact registerDisposalBranch_owner u now _ st (hrd_md hrd) d hd

/-- C3 witness: the model tried to register a ladder owned by Peter while
Anna is acting; the normalizer rewrites the owner and, applied to the empty
store, the interpreter creates only Anna-owned records. -/
theorem normalizer_ownership_invariant_witness :
    ∃ act',
      (enforceOwnership "anna" "register_item" (some exampleRegisterAct) "ok").1 =
        some act' ∧
      act'.action_type = exampleRegisterAct.action_type ∧
      (exampleRegisterAct.action_type = "register_item" →
        ∃ md', act'.metadata = some md' ∧ md'.owner_id = some "anna") ∧
      (exampleRegisterAct.action_type = "register_disposal_intent" →
        ∀ it ∈ (act'.metadata.getD emptyMetadata).items.getD [],
          it.owner_id = some "anna") ∧
      (((exampleRegisterAct.action_type = "register_item" ∧
          ∃ o, (exampleRegisterAct.metadata.getD emptyMetadata).owner_id = some o ∧
            o ≠ "anna") ∨
        (exampleRegisterAct.action_type = "register_disposal_intent" ∧
          ∃ it ∈ (exampleRegisterAct.metadata.getD emptyMetadata).items.getD [],
            ∃ o, it.owner_id = some o ∧ o ≠ "anna")) →
        (enforceOwnership "anna" "register_item" (some exampleRegisterAct) "ok").2 =
          pyStrip (pyStrip "ok" ++ "\n\n" ++ ownershipNoticeText "anna")) ∧
      (exampleRegisterAct.action_type = "register_item" →
        ∀ it ∈ (apply_action "anna" "register_item" (some act') "t1" emptySt).1.items,
          it.owner_id = "anna" ∨
            it.owner_id ∈ emptySt.items.map (fun x => x.owner_id)) ∧
      (exampleRegisterAct.action_type = "register_disposal_intent" →
        ∀ d ∈ (apply_action "anna" "register_item" (some act') "t1"
            emptySt).1.disposal_intents,
          d.owner_id = "anna" ∨ d ∈ emptySt.disposal_intents) :=
  normalizer_ownership_invariant "anna" "register_item" "ok" "t1" exampleRegisterAct
    emptySt (Or.inl rfl)

end LocalLoop
